import Mathlib

/-!
Verification of the HLHDF node list write/update engine and node operations.

The development shallowly embeds the C sources `hlhdf_write.c` and
`hlhdf_node.c`. The external HDF5 storage engine is modelled by an explicit
state (`H5State`) holding the contents of a single container and the table
of open handles; every engine call is a total Lean function on that state.
Helpers of the repository that are not part of the provided sources
(`extractParentChildName`, `getHL_Node`, `createHlHdfFile`, `openHlHdfFile`,
`translateCharToDatatype`, the type enumerations of `hlhdf_types.h` and
`copyHL_CompoundTypeDescription`) are modelled from the specification and
are marked as such in their doc comments.
-/

/-- Node type tag. Variant set taken from the switch dispatch in
`hlhdf_write.c` and the constructors in `hlhdf_node.c` (the numeric enum
values of the missing `hlhdf_types.h` are irrelevant: the code only compares
tags for equality). -/
inductive HL_Type where
  | UNDEFINED_ID
  | ATTRIBUTE_ID
  | GROUP_ID
  | DATASET_ID
  | TYPE_ID
  | REFERENCE_ID
deriving Repr, DecidableEq

export HL_Type (UNDEFINED_ID ATTRIBUTE_ID GROUP_ID DATASET_ID TYPE_ID REFERENCE_ID)

/-- Node lifecycle mark. `NMARK_CREATED`, `NMARK_ORIGINAL`, `NMARK_CHANGED`
appear in the provided sources; the selection mark is modelled from the
specification (mark Selected). -/
inductive HL_NodeMark where
  | NMARK_CREATED
  | NMARK_ORIGINAL
  | NMARK_CHANGED
  | NMARK_SELECT
deriving Repr, DecidableEq

export HL_NodeMark (NMARK_CREATED NMARK_ORIGINAL NMARK_CHANGED NMARK_SELECT)

/-- Data kind tag of a node (`HL_DataType` in the sources). -/
inductive HL_DataType where
  | DTYPE_UNDEFINED_ID
  | HL_SIMPLE
  | HL_ARRAY
deriving Repr, DecidableEq

export HL_DataType (DTYPE_UNDEFINED_ID HL_SIMPLE HL_ARRAY)

/-- Modelled from the spec: compression algorithm selector, "a small closed
enum, e.g. none/deflate-with-level/szip-with-mask-and-block-size"
(`hlhdf_types.h` is not under src/). -/
inductive HL_CompressionType where
  | CT_NONE
  | CT_ZLIB
  | CT_SZLIB
deriving Repr, DecidableEq

export HL_CompressionType (CT_NONE CT_ZLIB CT_SZLIB)

/-- Modelled from the spec: the numeric value of each selector of the C enum
`HL_CompressionType`; the declaration order none/deflate/szip is the order
the spec lists, and C enumerations number consecutively from 0. -/
def ctValue : HL_CompressionType → Int
  | CT_NONE => 0
  | CT_ZLIB => 1
  | CT_SZLIB => 2

/-- Inverse of `ctValue`: the selector denoted by an integer stored into the
enum-typed field (C permits such an assignment). -/
def compressionTypeOfValue (v : Int) : HL_CompressionType :=
  if v = 0 then CT_NONE else if v = 1 then CT_ZLIB else CT_SZLIB

/-- Compression settings (`HL_Compression` of `hlhdf_types.h`, fields as
used by `createSimpleDataset`). -/
structure HL_Compression where
  type : HL_CompressionType
  level : Int
  szlib_mask : Int
  szlib_px_per_block : Int
deriving Repr, DecidableEq

/-- Modelled from the spec: the file creation property instance handed to
`createHlHdfFile` ("fileProperties" of `writeNodeList`); its contents are
consumed by the engine and are not modelled further. -/
structure HL_FileCreationProperty where
  userblock : Int
deriving Repr, DecidableEq

/-- Compound type description. Modelled abstractly (its field list plays no
role in the verified claims); value equality stands for content equality. -/
structure HL_CompoundTypeDescription where
  size : Nat
  attrs : List String
deriving Repr, DecidableEq

/-- Modelled from the spec: `copy()` of a compound descriptor
"deep-duplicates all fields, independent lifetime" (`hlhdf_compound.c` is
not under src/); on values a deep duplicate is the same value, and a NULL
argument yields NULL. -/
def copyHL_CompoundTypeDescription :
    Option HL_CompoundTypeDescription → Option HL_CompoundTypeDescription :=
  fun d => d

/-- Format specifier (`HL_FormatSpecifier`). A representative subset of the
registry tokens; the verified claims only distinguish the undefined, the
meta-format array and the primitive formats. -/
inductive HL_FormatSpecifier where
  | HLHDF_UNDEFINED
  | HLHDF_INT
  | HLHDF_LONG
  | HLHDF_FLOAT
  | HLHDF_DOUBLE
  | HLHDF_STRING
  | HLHDF_COMPOUND
  | HLHDF_ARRAY
deriving Repr, DecidableEq

export HL_FormatSpecifier (HLHDF_UNDEFINED HLHDF_INT HLHDF_LONG HLHDF_FLOAT
  HLHDF_DOUBLE HLHDF_STRING HLHDF_COMPOUND HLHDF_ARRAY)

/-- Modelled from the spec: the Type/Format Registry map
`formatToEngineType(format) -> typeHandle|error` (`hlhdf.c` is not under
src/): a pure mapping from format token to an engine type handle, failing
(negative handle) for the undefined token, the meta-format array, and
compound (which requires an explicit handle). -/
def translateCharToDatatype : HL_FormatSpecifier → Int
  | HLHDF_UNDEFINED => -1
  | HLHDF_INT => 101
  | HLHDF_LONG => 102
  | HLHDF_FLOAT => 103
  | HLHDF_DOUBLE => 104
  | HLHDF_STRING => 105
  | HLHDF_COMPOUND => -1
  | HLHDF_ARRAY => -1

/-- The node structure `struct _HL_Node` of `hlhdf_node.c`. Byte buffers
are lists of byte values, `dims` is the owned extents buffer (`NULL`
modelled as `none`), handles (`typeId`, `hdfId`) are integers with the C
convention that negative means invalid/unset. -/
structure HL_Node where
  type : HL_Type
  name : String
  ndims : Int
  dims : Option (List Nat)
  data : Option (List Nat)
  rawdata : Option (List Nat)
  format : HL_FormatSpecifier
  typeId : Int
  dSize : Nat
  rdSize : Nat
  dataType : HL_DataType
  hdfId : Int
  mark : HL_NodeMark
  compoundDescription : Option HL_CompoundTypeDescription
  compression : Option HL_Compression
deriving Repr, DecidableEq

/-- `newHL_Node` of `hlhdf_node.c`: a fresh node with the given name and
the default field values the constructor assigns (allocation failure is not
modelled). -/
def newHL_Node (name : String) : HL_Node :=
  { type := UNDEFINED_ID
    name := name
    ndims := 0
    dims := none
    data := none
    rawdata := none
    format := HLHDF_UNDEFINED
    typeId := -1
    dSize := 0
    rdSize := 0
    dataType := DTYPE_UNDEFINED_ID
    hdfId := -1
    mark := NMARK_CREATED
    compoundDescription := none
    compression := none }

/-- `setHL_NodeType` of `hlhdf_node.c`. -/
def setHL_NodeType (node : HL_Node) (type : HL_Type) : HL_Node :=
  { node with type := type }

/-- `newHL_NodeWithType` of `hlhdf_node.c`. -/
def newHL_NodeWithType (name : String) (type : HL_Type) : HL_Node :=
  setHL_NodeType (newHL_Node name) type

/-- `newHL_Group` of `hlhdf_node.c`. -/
def newHL_Group (name : String) : HL_Node := newHL_NodeWithType name GROUP_ID

/-- `newHL_Attribute` of `hlhdf_node.c`. -/
def newHL_Attribute (name : String) : HL_Node := newHL_NodeWithType name ATTRIBUTE_ID

/-- `newHL_Dataset` of `hlhdf_node.c`. -/
def newHL_Dataset (name : String) : HL_Node := newHL_NodeWithType name DATASET_ID

/-- `newHL_Datatype` of `hlhdf_node.c`. -/
def newHL_Datatype (name : String) : HL_Node := newHL_NodeWithType name TYPE_ID

/-- `newHL_Reference` of `hlhdf_node.c`. -/
def newHL_Reference (name : String) : HL_Node := newHL_NodeWithType name REFERENCE_ID

/-- `setHL_NodeDimensions` of `hlhdf_node.c`: when `ndims > 0` and a
dimensions buffer is supplied it is copied, otherwise the stored buffer
becomes NULL; `ndims` is stored in either case. The int status is 1 on
success (the only failure in C is a malloc failure, not modelled). -/
def setHL_NodeDimensions (node : HL_Node) (ndims : Int) (dims : Option (List Nat)) :
    HL_Node × Int :=
  if 0 < ndims ∧ dims.isSome then
    ({ node with dims := dims, ndims := ndims }, 1)
  else
    ({ node with dims := none, ndims := ndims }, 1)

/-- hsize_t is the unsigned 64-bit extent type of the engine; products wrap
modulo 2 to the 64. -/
def hsizeMod : Nat := 18446744073709551616

/-- `getHL_NodeNumberOfPoints` of `hlhdf_node.c`: 1 for `ndims == 0`; the
running hsize_t product of `dims[0] .. dims[ndims-1]` when `ndims > 0` and
the dimensions buffer is present (the buffer holds exactly `ndims` extents
whenever it was set through the API, so the loop is the fold over the first
`ndims` entries); 0 otherwise. -/
def getHL_NodeNumberOfPoints (node : HL_Node) : Nat :=
  if node.ndims = 0 then 1
  else
    match node.dims with
    | some d =>
        if 0 < node.ndims then
          (d.take node.ndims.toNat).foldl (fun n x => n * x % hsizeMod) 1
        else 0
    | none => 0

/-- `getHL_NodeDimension` of `hlhdf_node.c`: 0 when the index is negative,
at or beyond `ndims`, or the dimensions buffer is NULL; otherwise the
extent at the index. -/
def getHL_NodeDimension (node : HL_Node) (index : Int) : Nat :=
  if index < 0 ∨ node.ndims ≤ index ∨ node.dims = none then 0
  else (node.dims.getD []).getD index.toNat 0

/-- `getHL_NodeRank` of `hlhdf_node.c`. -/
def getHL_NodeRank (node : HL_Node) : Int := node.ndims

/-- `copyHL_Node` of `hlhdf_node.c`, threading the fresh-handle counter that
stands for the engine allocating a new type handle in `H5Tcopy`. The C
function copies name and dimensions through `newHL_Node` and
`setHL_NodeDimensions` (called twice, as in the source), copies
`npts * dSize` data bytes and, when raw data is present, `npts * rdSize`
raw bytes, duplicates the engine type handle when one exists, resets the
storage object handle to -1, and duplicates the compound description.
The compression settings are left at the constructor default (the C copies
no compression field). Allocation failures are not modelled. -/
def copyHL_Node (node : HL_Node) (nextId : Int) : HL_Node × Int :=
  let retv := newHL_Node node.name
  let retv := (setHL_NodeDimensions retv node.ndims node.dims).1
  let retv := { retv with type := node.type, dSize := node.dSize, rdSize := node.rdSize }
  let retv := (setHL_NodeDimensions retv node.ndims node.dims).1
  let npts := getHL_NodeNumberOfPoints retv
  let retv := { retv with data := some ((node.data.getD []).take (npts * retv.dSize)) }
  let retv :=
    match node.rawdata with
    | some r => { retv with rawdata := some (r.take (npts * retv.rdSize)) }
    | none => { retv with rdSize := 0, rawdata := none }
  let retv := { retv with format := node.format }
  let pair :=
    if 0 ≤ node.typeId then ({ retv with typeId := nextId }, nextId + 1)
    else (retv, nextId)
  let retv := pair.1
  let retv := { retv with dataType := node.dataType, hdfId := -1, mark := node.mark }
  let retv :=
    { retv with compoundDescription := copyHL_CompoundTypeDescription node.compoundDescription }
  (retv, pair.2)

/-- `getHL_NodeName` returns the node name (the C strdup is value copying). -/
def getHL_NodeName (node : HL_Node) : String := node.name

/-- `setHL_NodeMark` of `hlhdf_node.c`. -/
def setHL_NodeMark (node : HL_Node) (mark : HL_NodeMark) : HL_Node :=
  { node with mark := mark }

/-- `getHL_NodeMark` of `hlhdf_node.c`. -/
def getHL_NodeMark (node : HL_Node) : HL_NodeMark := node.mark

/-- The node list (`HL_NodeList`): a filename and the ordered nodes (the C
counted array is a list). -/
structure HL_NodeList where
  filename : String
  nodes : List HL_Node
deriving Repr, DecidableEq

/-!
The storage engine model

One `H5State` holds the contents of a single HDF5 container (its groups,
datasets and committed types), the table of open handles, the fresh handle
counter, and a trace of the mutating engine calls the core has issued.
Handles are integers; a handle is open exactly when it is in the table, and
every engine call on a handle not in the table fails, in particular every
call on the invalid handle -1. The flag `commitSetsCommitted` selects
between the two engine behaviours the create/open/write contract allows
after a successful type commit (whether the committed status probe reports
positive afterwards); the repository code checks that probe separately, so
both behaviours are modelled.
-/

/-- One observable mutating engine call. -/
inductive H5Call where
  | groupCreated (path : String)
  | datasetCreated (path : String) (withProps : Bool)
  | attributeWritten (name : String)
  | chunkSet (ndims : Int)
  | deflateSet (level : Int)
  | szipSet (mask px : Int)
  | typeCommitted (name : String) (tid : Int)
  | referenceWritten (name : String)
  | dataWritten
deriving Repr, DecidableEq

/-- The modelled engine state. -/
structure H5State where
  nextId : Int
  handles : List (Int × String)
  files : List String
  groups : List String
  datasets : List String
  committedIds : List Int
  commitSetsCommitted : Bool
  trace : List H5Call
deriving Repr, DecidableEq

/-- Allocate a fresh open handle designating the given path. -/
def allocHandle (st : H5State) (path : String) : Int × H5State :=
  (st.nextId, { st with nextId := st.nextId + 1, handles := (st.nextId, path) :: st.handles })

/-- The path an open handle designates, if the handle is open. -/
def lookupHandle (st : H5State) (id : Int) : Option String :=
  st.handles.lookup id

/-- Close a handle: the `HL_H5G_CLOSE` / `HL_H5D_CLOSE` / `HL_H5A_CLOSE` /
`HL_H5S_CLOSE` / `HL_H5P_CLOSE` / `HL_H5F_CLOSE` macros (closing an id that
is not open, such as -1, is a no-op). -/
def closeId (st : H5State) (id : Int) : H5State :=
  { st with handles := st.handles.filter (fun p => p.1 != id) }

/-- Join a child name to the path a handle designates. -/
def joinPath (base name : String) : String :=
  if base = "/" then "/" ++ name else base ++ "/" ++ name

/-- `H5Gopen`: fails unless the location handle is open and the name
resolves to the root or an existing group; names are the absolute paths the
core passes (plus "." and "/" for the root). -/
def H5Gopen (st : H5State) (loc : Int) (name : String) : Int × H5State :=
  match lookupHandle st loc with
  | none => (-1, st)
  | some _ =>
      let target := if name = "." ∨ name = "/" then "/" else name
      if target = "/" ∨ st.groups.contains target then allocHandle st target
      else (-1, st)

/-- `H5Dopen`: fails unless the location handle is open and the name is an
existing dataset path. -/
def H5Dopen (st : H5State) (loc : Int) (name : String) : Int × H5State :=
  match lookupHandle st loc with
  | none => (-1, st)
  | some _ => if st.datasets.contains name then allocHandle st name else (-1, st)

/-- `H5Gcreate`: creates a group under the path the location handle
designates; fails if the location is not open or the path already exists. -/
def H5Gcreate (st : H5State) (loc : Int) (name : String) : Int × H5State :=
  match lookupHandle st loc with
  | none => (-1, st)
  | some base =>
      let p := joinPath base name
      if st.groups.contains p ∨ st.datasets.contains p then (-1, st)
      else
        allocHandle
          { st with groups := st.groups ++ [p], trace := st.trace ++ [H5Call.groupCreated p] } p

/-- `H5Screate` (scalar dataspace): always succeeds. -/
def H5Screate (st : H5State) : Int × H5State :=
  allocHandle st ""

/-- `H5Screate_simple`: fails for a negative rank or for a positive rank
with a NULL dimensions buffer. -/
def H5Screate_simple (st : H5State) (ndims : Int) (dims : Option (List Nat)) :
    Int × H5State :=
  if ndims < 0 ∨ (0 < ndims ∧ dims.isNone) then (-1, st) else allocHandle st ""

/-- `H5Acreate`: fails unless the location and dataspace handles are open
and the type handle is non-negative. -/
def H5Acreate (st : H5State) (loc : Int) (name : String) (tid : Int) (spaceId : Int) :
    Int × H5State :=
  if (lookupHandle st loc).isSome ∧ 0 ≤ tid ∧ (lookupHandle st spaceId).isSome then
    allocHandle st name
  else (-1, st)

/-- `H5Awrite`: fails unless the attribute handle is open and a buffer is
supplied; records the write. -/
def H5Awrite (st : H5State) (attrId : Int) (buf : Option (List Nat)) : H5State × Int :=
  match lookupHandle st attrId with
  | none => (st, -1)
  | some name =>
      if buf.isSome then
        ({ st with trace := st.trace ++ [H5Call.attributeWritten name] }, 0)
      else (st, -1)

/-- `H5Pcreate` (dataset creation property list): always succeeds. -/
def H5Pcreate (st : H5State) : Int × H5State :=
  allocHandle st ""

/-- `H5Pset_chunk`: fails unless the property handle is open, the rank is
positive and a dimensions buffer is present. -/
def H5Pset_chunk (st : H5State) (props : Int) (ndims : Int) (dims : Option (List Nat)) :
    H5State × Int :=
  if (lookupHandle st props).isSome ∧ 0 < ndims ∧ dims.isSome then
    ({ st with trace := st.trace ++ [H5Call.chunkSet ndims] }, 0)
  else (st, -1)

/-- `H5Pset_deflate`: fails unless the property handle is open and the
level is in 0..9. -/
def H5Pset_deflate (st : H5State) (props : Int) (level : Int) : H5State × Int :=
  if (lookupHandle st props).isSome ∧ 0 ≤ level ∧ level ≤ 9 then
    ({ st with trace := st.trace ++ [H5Call.deflateSet level] }, 0)
  else (st, -1)

/-- `H5Pset_szip`: fails unless the property handle is open (the mask and
block validation of the codec is not modelled). -/
def H5Pset_szip (st : H5State) (props : Int) (mask px : Int) : H5State × Int :=
  if (lookupHandle st props).isSome then
    ({ st with trace := st.trace ++ [H5Call.szipSet mask px] }, 0)
  else (st, -1)

/-- `H5Dcreate`: creates a dataset under the path the location handle
designates, with `props = -1` standing for `H5P_DEFAULT`; fails if the
location or dataspace handle is not open, the type handle is negative, a
supplied property handle is not open, or the path already exists. -/
def H5Dcreate (st : H5State) (loc : Int) (name : String) (tid : Int)
    (spaceId : Int) (props : Int) : Int × H5State :=
  match lookupHandle st loc with
  | none => (-1, st)
  | some base =>
      if 0 ≤ tid ∧ (lookupHandle st spaceId).isSome ∧ (props < 0 ∨ (lookupHandle st props).isSome) then
        let p := joinPath base name
        if st.groups.contains p ∨ st.datasets.contains p then (-1, st)
        else
          allocHandle
            { st with datasets := st.datasets ++ [p],
                      trace := st.trace ++ [H5Call.datasetCreated p (0 ≤ props)] } p
      else (-1, st)

/-- `H5Dwrite`: fails unless the dataset handle is open; records the write. -/
def H5Dwrite (st : H5State) (dsId : Int) (buf : List Nat) : H5State × Int :=
  match lookupHandle st dsId with
  | none => (st, -1)
  | some _ => ({ st with trace := st.trace ++ [H5Call.dataWritten] }, 0)

/-- `H5Tcopy` of a type handle: a fresh handle when the source handle is
non-negative (type handles live outside the open-object table; only their
sign matters to the core). -/
def H5Tcopy (st : H5State) (tid : Int) : Int × H5State :=
  if 0 ≤ tid then (st.nextId, { st with nextId := st.nextId + 1 }) else (-1, st)

/-- `H5Tcopy` of the built-in object reference type `H5T_STD_REF_OBJ`:
always a fresh handle. -/
def H5TcopyRefType (st : H5State) : Int × H5State :=
  (st.nextId, { st with nextId := st.nextId + 1 })

/-- `H5Tcommit` (through the `commitType` wrapper of `hlhdf_write.c`):
fails unless the location handle is open and the type handle is
non-negative; on success records the commit and, when the engine behaviour
flag says so, makes the committed-status probe report positive for this
type handle. -/
def H5Tcommit (st : H5State) (loc : Int) (name : String) (tid : Int) : H5State × Int :=
  if (lookupHandle st loc).isSome ∧ 0 ≤ tid then
    ({ st with
        committedIds := if st.commitSetsCommitted then st.committedIds ++ [tid] else st.committedIds,
        trace := st.trace ++ [H5Call.typeCommitted name tid] }, 0)
  else (st, -1)

/-- `commitType` of `hlhdf_write.c`: the thin wrapper over `H5Tcommit`. -/
def commitType (st : H5State) (loc : Int) (name : String) (tid : Int) : H5State × Int :=
  H5Tcommit st loc name tid

/-- `H5Tcommitted`: positive exactly when the committed-status probe knows
the type handle as committed. Pure read, no state change. -/
def H5Tcommitted (st : H5State) (tid : Int) : Int :=
  if st.committedIds.contains tid then 1 else 0

/-- `H5Rcreate`: fails unless the file handle is open (the source itself
assumes the target name denotes an existing object, see the comment in
`createReference`, so target resolution is not modelled further). -/
def H5Rcreate (st : H5State) (fileId : Int) (target : String) : H5State × Int :=
  if (lookupHandle st fileId).isSome then
    ({ st with trace := st.trace ++ [H5Call.referenceWritten target] }, 0)
  else (st, -1)

/-- Modelled from the spec: `createHlHdfFile` (in `hlhdf.c`, not under
src/) "creates a brand-new persisted hierarchy": the container contents are
truncated and a handle to the root is returned (the file creation property
is passed to the engine and has no further modelled effect). -/
def createHlHdfFile (st : H5State) (filename : String)
    (property : Option HL_FileCreationProperty) : Int × H5State :=
  let st := { st with groups := [], datasets := [],
                      files := if st.files.contains filename then st.files
                               else st.files ++ [filename] }
  allocHandle st "/"

/-- Modelled from the spec: `openHlHdfFile` (in `hlhdf.c`, not under src/)
"opens an existing persisted hierarchy for read-write": fails unless the
file exists, otherwise returns a handle to the root. -/
def openHlHdfFile (st : H5State) (filename : String) (mode : String) : Int × H5State :=
  if st.files.contains filename then allocHandle st "/" else (-1, st)

/-- Modelled from the spec: `extractParentChildName` (in `hlhdf_nodelist.c`,
not under src/) resolves the parent path by a "string-split on the last
slash; empty parent means root"; a name without a slash does not split and
the call fails. Implemented over the character list of the name. -/
def lastSlashSplit : List Char → Option (List Char × List Char)
  | [] => none
  | c :: rest =>
      match lastSlashSplit rest with
      | some (p, ch) => some (c :: p, ch)
      | none => if c = '/' then some ([], rest) else none

/-- See `lastSlashSplit`: the parent/child decomposition of a node name. -/
def extractParentChildName (node : HL_Node) : Option (String × String) :=
  match lastSlashSplit node.name.toList with
  | some (p, c) => some (String.mk p, String.mk c)
  | none => none

/-- Modelled from the spec: `getHL_Node` (in `hlhdf_nodelist.c`, not under
src/) "locates a node called nodeName in the nodelist", paths being the
sole identity; the first node with the given name. -/
def getHL_Node (nodes : List HL_Node) (name : String) : Option HL_Node :=
  nodes.find? (fun m => m.name == name)

/-!
Embedding of hlhdf_write.c

Each C helper returns its int status together with the engine state and the
(possibly mutated) child node; C mutates the node and the compression
struct through pointers, which the embedding renders by returning the
updated values. The goto-fail cleanup of each function is performed on
every exit path, as in the source.
-/

/-- Result of one per-node helper: engine state, the child node as left in
memory, and the int status (1 success, 0 failure). -/
structure DoNodeResult where
  st : H5State
  child : HL_Node
  status : Int
deriving Repr, DecidableEq

/-- Result of a dataset helper, which additionally hands back the
compression struct it received through a pointer (and possibly wrote to). -/
structure DoDatasetResult where
  st : H5State
  child : HL_Node
  compress : Option HL_Compression
  status : Int
deriving Repr, DecidableEq

/-- The shared type-id resolution prelude of the attribute/dataset helpers:
if the format is not the undefined token and no type handle is set, derive
one from the registry (writing it into the node, as the C does through the
pointer). -/
def resolveNodeTypeId (n : HL_Node) : HL_Node :=
  if n.format ≠ HLHDF_UNDEFINED ∧ n.typeId < 0 then
    { n with typeId := translateCharToDatatype n.format }
  else n

/-- `writeScalarDataAttribute` of `hlhdf_write.c`: scalar dataspace,
attribute creation, write; the dataspace and attribute handles are closed
on every exit. -/
def writeScalarDataAttribute (st : H5State) (locId tid : Int) (name : String)
    (buf : Option (List Nat)) : H5State × Int :=
  let p := H5Screate st
  let aid := p.1
  let st := p.2
  if aid < 0 then (st, -1)
  else
    let p := H5Acreate st locId name tid aid
    let attrId := p.1
    let st := p.2
    if attrId < 0 then (closeId (closeId st aid) attrId, -1)
    else
      let p := H5Awrite st attrId buf
      if p.2 < 0 then (closeId (closeId p.1 aid) attrId, -1)
      else (closeId (closeId p.1 aid) attrId, 0)

/-- `writeSimpleDataAttribute` of `hlhdf_write.c`: simple dataspace of the
given rank and extents, attribute creation, write; handles closed on every
exit. -/
def writeSimpleDataAttribute (st : H5State) (locId tid : Int) (name : String)
    (ndims : Int) (dims : Option (List Nat)) (buf : Option (List Nat)) : H5State × Int :=
  let p := H5Screate_simple st ndims dims
  let dataspace := p.1
  let st := p.2
  if dataspace < 0 then (st, -1)
  else
    let p := H5Acreate st locId name tid dataspace
    let attrId := p.1
    let st := p.2
    if attrId < 0 then (closeId (closeId st dataspace) attrId, -1)
    else
      let p := H5Awrite st attrId buf
      if p.2 < 0 then (closeId (closeId p.1 dataspace) attrId, -1)
      else (closeId (closeId p.1 dataspace) attrId, 0)

/-- The plain (no property list) branch of `createSimpleDataset`: create
the dataset with default properties and write the buffer if one is present;
the C returns the dataset handle even if the final `H5Dwrite` fails. The
done-cleanup closes the dataspace (no property list was created). -/
def createSimpleDatasetPlain (st : H5State) (locId tid : Int) (name : String)
    (dataspace : Int) (buf : Option (List Nat)) (c : Option HL_Compression) :
    H5State × Option HL_Compression × Int :=
  let p := H5Dcreate st locId name tid dataspace (-1)
  let dataset := p.1
  let st := p.2
  if dataset < 0 then (closeId st dataspace, c, -1)
  else
    match buf with
    | some b =>
        let q := H5Dwrite st dataset b
        (closeId q.1 dataspace, c, dataset)
    | none => (closeId st dataspace, c, dataset)

/-- The compression branch of `createSimpleDataset`: property list,
chunking, deflate when the (possibly just assigned) selector equals zlib
and szip otherwise, dataset creation with the property list, optional data
write; dataspace and property handles closed on every exit. -/
def createSimpleDatasetCompressed (st : H5State) (locId tid : Int) (name : String)
    (ndims : Int) (dims : Option (List Nat)) (dataspace : Int)
    (buf : Option (List Nat)) (c : HL_Compression) :
    H5State × Option HL_Compression × Int :=
  let p := H5Pcreate st
  let props := p.1
  let st := p.2
  if props < 0 then (closeId (closeId st dataspace) props, some c, -1)
  else
    let q := H5Pset_chunk st props ndims dims
    let st := q.1
    if q.2 < 0 then (closeId (closeId st dataspace) props, some c, -1)
    else
      let q :=
        if c.type = CT_ZLIB then H5Pset_deflate st props c.level
        else H5Pset_szip st props c.szlib_mask c.szlib_px_per_block
      let st := q.1
      if q.2 < 0 then (closeId (closeId st dataspace) props, some c, -1)
      else
        let p := H5Dcreate st locId name tid dataspace props
        let dataset := p.1
        let st := p.2
        if dataset < 0 then (closeId (closeId st dataspace) props, some c, -1)
        else
          match buf with
          | some b =>
              let q := H5Dwrite st dataset b
              (closeId (closeId q.1 dataspace) props, some c, dataset)
          | none => (closeId (closeId st dataspace) props, some c, dataset)

/-- `createSimpleDataset` of `hlhdf_write.c`. The guard in the source is

  compress != NULL && (compress->type == CT_SZLIB ||
      (compress->type = CT_ZLIB && (compress->level > 0 || compress->level <= 9)))

where the inner operator is the C assignment: when the selector is not
szlib, the field `compress->type` is assigned the int value of
`CT_ZLIB && (level > 0 || level <= 9)` and the guard tests that value
(the level test is a tautology over the ints). The embedding evaluates the
guard exactly like that, returning the struct as the caller sees it
afterwards. -/
def createSimpleDataset (st : H5State) (locId tid : Int) (name : String)
    (ndims : Int) (dims : Option (List Nat)) (buf : Option (List Nat))
    (compress : Option HL_Compression) : H5State × Option HL_Compression × Int :=
  let p := H5Screate_simple st ndims dims
  let dataspace := p.1
  let st := p.2
  if dataspace < 0 then (closeId st dataspace, compress, -1)
  else
    match compress with
    | none => createSimpleDatasetPlain st locId tid name dataspace buf none
    | some c0 =>
        if c0.type = CT_SZLIB then
          createSimpleDatasetCompressed st locId tid name ndims dims dataspace buf c0
        else
          let assigned : Int :=
            if ctValue CT_ZLIB ≠ 0 ∧ (0 < c0.level ∨ c0.level ≤ 9) then 1 else 0
          let c1 := { c0 with type := compressionTypeOfValue assigned }
          if assigned ≠ 0 then
            createSimpleDatasetCompressed st locId tid name ndims dims dataspace buf c1
          else
            createSimpleDatasetPlain st locId tid name dataspace buf (some c1)

/-- `createReference` of `hlhdf_write.c`: scalar dataspace, a copy of the
object reference type, attribute creation, reference creation in the file,
attribute write; dataspace, attribute and type handles closed on every
exit. -/
def createReference (st : H5State) (locId fileId : Int) (name target : String) :
    H5State × Int :=
  let p := H5Screate st
  let aid := p.1
  let st := p.2
  if aid < 0 then (st, -1)
  else
    let p := H5TcopyRefType st
    let attrType := p.1
    let st := p.2
    if attrType < 0 then (closeId st aid, -1)
    else
      let p := H5Acreate st locId name attrType aid
      let attrId := p.1
      let st := p.2
      if attrId < 0 then (closeId (closeId st aid) attrId, -1)
      else
        let q := H5Rcreate st fileId target
        let st := q.1
        if q.2 < 0 then (closeId (closeId st aid) attrId, -1)
        else
          let q := H5Awrite st attrId (some [0])
          if q.2 < 0 then (closeId (closeId q.1 aid) attrId, -1)
          else (closeId (closeId q.1 aid) attrId, 0)

/-- The reference target the node data holds, read as a string (the C casts
the data buffer to a char pointer). -/
def bytesAsString (d : Option (List Nat)) : String :=
  String.mk ((d.getD []).map Char.ofNat)

/-- `doWriteHdf5Attribute` of `hlhdf_write.c` (full-write path): the
location is the root group when the parent name is empty, otherwise the
storage handle held by the parent node; type-id resolution writes into the
node. The NULL-pointer guards of the C on the name buffers cannot trigger
here because the caller always passes filled buffers; a missing parent node
is rendered as the invalid handle. -/
def doWriteHdf5Attribute (st : H5State) (rootGrp : Int) (parentNode : Option HL_Node)
    (parentName : String) (child : HL_Node) (childName : String) : DoNodeResult :=
  let tmpLocId := if parentName = "" then rootGrp else (parentNode.map (fun n => n.hdfId)).getD (-1)
  let child := resolveNodeTypeId child
  if child.typeId < 0 then ⟨st, child, 0⟩
  else if child.ndims = 0 then
    let q := writeScalarDataAttribute st tmpLocId child.typeId childName child.data
    if q.2 < 0 then ⟨q.1, child, 0⟩ else ⟨q.1, child, 1⟩
  else
    let q := writeSimpleDataAttribute st tmpLocId child.typeId childName child.ndims child.dims child.data
    if q.2 < 0 then ⟨q.1, child, 0⟩ else ⟨q.1, child, 1⟩

/-- `doWriteHdf5Group` of `hlhdf_write.c` (full-write path): close any
transient handle the node held, create the group under the root or under
the parent node handle, and keep the new handle in the node. -/
def doWriteHdf5Group (st : H5State) (rootGrp : Int) (parentNode : Option HL_Node)
    (parentName : String) (child : HL_Node) (childName : String) : DoNodeResult :=
  let st := closeId st child.hdfId
  let loc := if parentName = "" then rootGrp else (parentNode.map (fun n => n.hdfId)).getD (-1)
  let p := H5Gcreate st loc childName
  let child : HL_Node := { child with hdfId := p.1 }
  if child.hdfId < 0 then ⟨p.2, child, 0⟩ else ⟨p.2, child, 1⟩

/-- `doWriteHdf5Dataset` of `hlhdf_write.c` (full-write path): type-id
resolution, close any transient handle the node held, create the dataset
through `createSimpleDataset` with the given compression struct, and keep
the new handle in the node. -/
def doWriteHdf5Dataset (st : H5State) (rootGrp : Int) (parentNode : Option HL_Node)
    (parentName : String) (child : HL_Node) (childName : String)
    (compression : Option HL_Compression) : DoDatasetResult :=
  let tmpLocId := if parentName = "" then rootGrp else (parentNode.map (fun n => n.hdfId)).getD (-1)
  let child := resolveNodeTypeId child
  if child.typeId < 0 then ⟨st, child, compression, 0⟩
  else
    let st := closeId st child.hdfId
    let r := createSimpleDataset st tmpLocId child.typeId childName child.ndims child.dims child.data compression
    let child : HL_Node := { child with hdfId := r.2.2 }
    if child.hdfId < 0 then ⟨r.1, child, r.2.1, 0⟩ else ⟨r.1, child, r.2.1, 1⟩

/-- `doWriteHdf5Datatype` of `hlhdf_write.c`: fails when the location is
invalid or the commit call fails; after a successful commit the
committed-status probe is consulted, but a non-positive probe result is
only reported through the error log — the source is missing the early
return there and the function still returns 1. -/
def doWriteHdf5Datatype (st : H5State) (locId : Int) (child : HL_Node) : DoNodeResult :=
  if locId < 0 then ⟨st, child, 0⟩
  else
    let q := commitType st locId child.name child.hdfId
    let st := q.1
    if q.2 < 0 then ⟨st, child, 0⟩
    else
      if H5Tcommitted st child.hdfId ≤ 0 then
        -- HL_ERROR1("Failed to commit datatype ..."); no return follows
        ⟨st, child, 1⟩
      else ⟨st, child, 1⟩

/-- `doWriteHdf5Reference` of `hlhdf_write.c` (full-write path). -/
def doWriteHdf5Reference (st : H5State) (rootGrp fileId : Int) (parentNode : Option HL_Node)
    (parentName : String) (child : HL_Node) (childName : String) : DoNodeResult :=
  let tmpLocId := if parentName = "" then rootGrp else (parentNode.map (fun n => n.hdfId)).getD (-1)
  let q := createReference st tmpLocId fileId childName (bytesAsString child.data)
  if q.2 < 0 then ⟨q.1, child, 0⟩ else ⟨q.1, child, 1⟩

/-- The cleanup at the fail label of `doAppendHdf5Attribute`: the opened
parent is closed according to the parent type that was determined (the
close macro differs only in which engine close is invoked; when no type was
determined only an error is logged). -/
def closeByParentType (st : H5State) (ptype : HL_Type) (locId : Int) : H5State :=
  if ptype = GROUP_ID ∨ ptype = DATASET_ID then closeId st locId else st

/-- `doAppendHdf5Attribute` of `hlhdf_write.c` (update path): the parent is
opened from the file by path — the root when the parent name is empty,
otherwise first as a group and, failing that, as a dataset. On success the
node mark is reset to `NMARK_ORIGINAL`; the opened parent is closed on
every exit. -/
def doAppendHdf5Attribute (st : H5State) (fileId : Int) (parentName : String)
    (child : HL_Node) (childName : String) : DoNodeResult :=
  let opened :=
    if parentName = "" then
      let p := H5Gopen st fileId "/"
      (p.1, if p.1 < 0 then UNDEFINED_ID else GROUP_ID, p.2)
    else
      let p := H5Gopen st fileId parentName
      if p.1 < 0 then
        let q := H5Dopen p.2 fileId parentName
        (q.1, if 0 ≤ q.1 then DATASET_ID else UNDEFINED_ID, q.2)
      else (p.1, GROUP_ID, p.2)
  let locId := opened.1
  let parentType := opened.2.1
  let st := opened.2.2
  if locId < 0 then ⟨closeByParentType st parentType locId, child, 0⟩
  else
    let child := resolveNodeTypeId child
    if child.typeId < 0 then ⟨closeByParentType st parentType locId, child, 0⟩
    else if child.ndims = 0 then
      let q := writeScalarDataAttribute st locId child.typeId childName child.data
      if q.2 < 0 then ⟨closeByParentType q.1 parentType locId, child, 0⟩
      else ⟨closeByParentType q.1 parentType locId, { child with mark := NMARK_ORIGINAL }, 1⟩
    else
      let q := writeSimpleDataAttribute st locId child.typeId childName child.ndims child.dims child.data
      if q.2 < 0 then ⟨closeByParentType q.1 parentType locId, child, 0⟩
      else ⟨closeByParentType q.1 parentType locId, { child with mark := NMARK_ORIGINAL }, 1⟩

/-- `doAppendHdf5Group` of `hlhdf_write.c` (update path): open the parent
group from the file by path (the root when the parent name is empty),
create the group, close both handles on every exit; on success the node
mark is reset to `NMARK_ORIGINAL` (the new group handle is not kept in the
node). -/
def doAppendHdf5Group (st : H5State) (fileId : Int) (parentName : String)
    (child : HL_Node) (childName : String) : DoNodeResult :=
  let p := if parentName = "" then H5Gopen st fileId "/" else H5Gopen st fileId parentName
  let locId := p.1
  let st := p.2
  if locId < 0 then ⟨closeId (closeId st locId) (-1), child, 0⟩
  else
    let q := H5Gcreate st locId childName
    let newId := q.1
    let st := q.2
    if newId < 0 then ⟨closeId (closeId st locId) newId, child, 0⟩
    else ⟨closeId (closeId st locId) newId, { child with mark := NMARK_ORIGINAL }, 1⟩

/-- `doAppendHdf5Dataset` of `hlhdf_write.c` (update path): open the parent
group from the supplied file handle by path, resolve the type id, create
the dataset through `createSimpleDataset`, close both handles on every
exit; on success the node mark is reset to `NMARK_ORIGINAL` (the new
dataset handle is not kept in the node). -/
def doAppendHdf5Dataset (st : H5State) (fileId : Int) (parentName : String)
    (child : HL_Node) (childName : String) (compression : Option HL_Compression) :
    DoDatasetResult :=
  let p := if parentName = "" then H5Gopen st fileId "/" else H5Gopen st fileId parentName
  let locId := p.1
  let st := p.2
  if locId < 0 then ⟨closeId (closeId st locId) (-1), child, compression, 0⟩
  else
    let child := resolveNodeTypeId child
    if child.typeId < 0 then ⟨closeId (closeId st locId) (-1), child, compression, 0⟩
    else
      let r := createSimpleDataset st locId child.typeId childName child.ndims child.dims child.data compression
      let newId := r.2.2
      let st := r.1
      if newId < 0 then ⟨closeId (closeId st locId) newId, child, r.2.1, 0⟩
      else ⟨closeId (closeId st locId) newId, { child with mark := NMARK_ORIGINAL }, r.2.1, 1⟩

/-!
The write and update loops

Both entry points iterate the node list in insertion order. Per iteration
they extract the parent and child component of the node path, look the
parent node up in the (current, partially processed) list when the parent
component is non-empty, and dispatch on the node type. The loops are
embedded as a step function (one iteration) and a structural recursion over
the remaining nodes; `done` accumulates the already processed nodes in
reverse, and the lookup context is the whole current list, as
`getHL_Node(nodelist, ...)` sees it.
-/

/-- Outcome of one loop iteration: abort the whole call (goto fail) with
the node as left in memory, or continue with the processed node and the
call-level compression pointer value to use from now on. -/
inductive StepOut where
  | fail (st : H5State) (n : HL_Node)
  | ok (st : H5State) (n : HL_Node) (compression : Option HL_Compression)
deriving Repr, DecidableEq

/-- Result of a whole loop: final engine state, the full node list as left
in memory, and the int status of the entry point. -/
structure LoopResult where
  st : H5State
  nodes : List HL_Node
  status : Int
deriving Repr, DecidableEq

/-- One iteration of the `writeHL_NodeList` loop (`hlhdf_write.c`,
lines 650-706): name extraction, parent lookup, dispatch on the node type.
An unrecognized type only logs "Unrecognized type" and breaks out of the
switch — the loop continues. For datasets, a non-NULL call-level
compression argument is passed (and its possibly mutated value kept for
the following iterations), otherwise the per-node compression struct. -/
def writeStep (st : H5State) (fileId gid : Int) (compression : Option HL_Compression)
    (ctx : List HL_Node) (n : HL_Node) : StepOut :=
  match extractParentChildName n with
  | none => StepOut.fail st n
  | some pc =>
      let parentName := pc.1
      let childName := pc.2
      let parentNode := if parentName = "" then none else getHL_Node ctx parentName
      if parentName ≠ "" ∧ parentNode.isNone then StepOut.fail st n
      else
        match n.type with
        | ATTRIBUTE_ID =>
            let r := doWriteHdf5Attribute st gid parentNode parentName n childName
            if r.status = 1 then StepOut.ok r.st r.child compression else StepOut.fail r.st r.child
        | GROUP_ID =>
            let r := doWriteHdf5Group st gid parentNode parentName n childName
            if r.status = 1 then StepOut.ok r.st r.child compression else StepOut.fail r.st r.child
        | DATASET_ID =>
            match compression with
            | some c =>
                let r := doWriteHdf5Dataset st gid parentNode parentName n childName (some c)
                if r.status = 1 then StepOut.ok r.st r.child r.compress
                else StepOut.fail r.st r.child
            | none =>
                let r := doWriteHdf5Dataset st gid parentNode parentName n childName n.compression
                let n2 : HL_Node := { r.child with compression := r.compress }
                if r.status = 1 then StepOut.ok r.st n2 none else StepOut.fail r.st n2
        | TYPE_ID =>
            let r := doWriteHdf5Datatype st fileId n
            if r.status = 1 then StepOut.ok r.st r.child compression else StepOut.fail r.st r.child
        | REFERENCE_ID =>
            let r := doWriteHdf5Reference st gid fileId parentNode parentName n childName
            if r.status = 1 then StepOut.ok r.st r.child compression else StepOut.fail r.st r.child
        | UNDEFINED_ID =>
            -- HL_ERROR0("Unrecognized type"); break — the loop continues
            StepOut.ok st n compression

/-- The `writeHL_NodeList` loop over the remaining nodes. -/
def writeLoop (fileId gid : Int) (st : H5State) (compression : Option HL_Compression)
    (done todo : List HL_Node) : LoopResult :=
  match todo with
  | [] => ⟨st, done.reverse, 1⟩
  | n :: rest =>
      match writeStep st fileId gid compression (done.reverse ++ n :: rest) n with
      | StepOut.fail st2 n2 => ⟨st2, done.reverse ++ n2 :: rest, 0⟩
      | StepOut.ok st2 n2 c2 => writeLoop fileId gid st2 c2 (n2 :: done) rest

/-- Result of an entry point: engine state, node list as left in memory,
and int status (1 success, 0 failure). -/
structure HLResult where
  st : H5State
  nodelist : HL_NodeList
  status : Int
deriving Repr, DecidableEq

/-- `writeHL_NodeList` of `hlhdf_write.c`: create the file, open its root
group, run the loop; on both the success and the fail exit the root-group
and file handles are closed (the string type local is never opened, its
close is a no-op on -1). -/
def writeHL_NodeList (st : H5State) (nodelist : HL_NodeList)
    (property : Option HL_FileCreationProperty)
    (compression : Option HL_Compression) : HLResult :=
  let p := createHlHdfFile st nodelist.filename property
  let fileId := p.1
  let st := p.2
  if fileId < 0 then ⟨st, nodelist, 0⟩
  else
    let q := H5Gopen st fileId "."
    let gid := q.1
    let st := q.2
    if gid < 0 then ⟨closeId st fileId, nodelist, 0⟩
    else
      let r := writeLoop fileId gid st compression [] nodelist.nodes
      ⟨closeId (closeId (closeId r.st gid) fileId) (-1),
       { nodelist with nodes := r.nodes }, r.status⟩

/-- One iteration of the `updateHL_NodeList` loop for a node whose mark is
`NMARK_CREATED` (`hlhdf_write.c`, lines 737-791): name extraction, parent
lookup, dispatch. The dataset case passes the local variable `gid` — which
`updateHL_NodeList` initializes to -1 and never opens — as the file handle
of `doAppendHdf5Dataset`, in both the call-level and the per-node
compression branch. There is no reference case: references fall into the
default case, which only prints "Unrecognized type" and continues. -/
def updateStep (st : H5State) (fileId gid : Int) (compression : Option HL_Compression)
    (ctx : List HL_Node) (n : HL_Node) : StepOut :=
  match extractParentChildName n with
  | none => StepOut.fail st n
  | some pc =>
      let parentName := pc.1
      let childName := pc.2
      let parentNode := if parentName = "" then none else getHL_Node ctx parentName
      if parentName ≠ "" ∧ parentNode.isNone then StepOut.fail st n
      else
        match n.type with
        | ATTRIBUTE_ID =>
            let r := doAppendHdf5Attribute st fileId parentName n childName
            if r.status = 1 then StepOut.ok r.st r.child compression else StepOut.fail r.st r.child
        | GROUP_ID =>
            let r := doAppendHdf5Group st fileId parentName n childName
            if r.status = 1 then StepOut.ok r.st r.child compression else StepOut.fail r.st r.child
        | DATASET_ID =>
            match compression with
            | some c =>
                let r := doAppendHdf5Dataset st gid parentName n childName (some c)
                if r.status = 1 then StepOut.ok r.st r.child r.compress
                else StepOut.fail r.st r.child
            | none =>
                let r := doAppendHdf5Dataset st gid parentName n childName n.compression
                let n2 : HL_Node := { r.child with compression := r.compress }
                if r.status = 1 then StepOut.ok r.st n2 none else StepOut.fail r.st n2
        | TYPE_ID =>
            let r := doWriteHdf5Datatype st fileId n
            if r.status = 1 then StepOut.ok r.st r.child compression else StepOut.fail r.st r.child
        | REFERENCE_ID =>
            -- default case: fprintf(stderr, "Unrecognized type"); the loop continues
            StepOut.ok st n compression
        | UNDEFINED_ID =>
            StepOut.ok st n compression

/-- The `updateHL_NodeList` loop over the remaining nodes: a node is
processed only when its mark is `NMARK_CREATED`; every other node is
skipped untouched. -/
def updateLoop (fileId gid : Int) (st : H5State) (compression : Option HL_Compression)
    (done todo : List HL_Node) : LoopResult :=
  match todo with
  | [] => ⟨st, done.reverse, 1⟩
  | n :: rest =>
      if n.mark = NMARK_CREATED then
        match updateStep st fileId gid compression (done.reverse ++ n :: rest) n with
        | StepOut.fail st2 n2 => ⟨st2, done.reverse ++ n2 :: rest, 0⟩
        | StepOut.ok st2 n2 c2 => updateLoop fileId gid st2 c2 (n2 :: done) rest
      else
        updateLoop fileId gid st compression (n :: done) rest

/-- `updateHL_NodeList` of `hlhdf_write.c`: open the existing file
read-write, run the loop (the local `gid` stays -1 throughout); on both
exits `gid`, the file handle and the never-opened string type local are
closed. -/
def updateHL_NodeList (st : H5State) (nodelist : HL_NodeList)
    (compression : Option HL_Compression) : HLResult :=
  let p := openHlHdfFile st nodelist.filename "rw"
  let fileId := p.1
  let st := p.2
  if fileId < 0 then ⟨st, nodelist, 0⟩
  else
    let r := updateLoop fileId (-1) st compression [] nodelist.nodes
    ⟨closeId (closeId (closeId r.st (-1)) fileId) (-1),
     { nodelist with nodes := r.nodes }, r.status⟩

/-!
Helper lemmas
-/

/-- Folding hsize_t multiplication over a non-empty list is the list
product reduced modulo the word size. -/
theorem foldl_mulMod (m : Nat) :
    ∀ (d : List Nat), d ≠ [] → ∀ (acc : Nat),
      d.foldl (fun n x => n * x % m) acc = acc * d.prod % m
  | [], h, _ => absurd rfl h
  | [x], _, acc => by simp [List.foldl]
  | x :: y :: ys, _, acc => by
      have ih := foldl_mulMod m (y :: ys) (by simp) (acc * x % m)
      simp only [List.foldl] at ih ⊢
      rw [ih, Nat.mod_mul_mod]
      simp [List.prod_cons, Nat.mul_assoc]

/-- Transport a pairwise relation between two lists to their entries. -/
theorem forall2_getD {α : Type} {R : α → α → Prop} (dflt : α) :
    ∀ {l l2 : List α}, List.Forall₂ R l l2 → ∀ i, i < l.length →
      R (l.getD i dflt) (l2.getD i dflt) := by
  intro l l2 h
  induction h with
  | nil => intro i hi; simp at hi
  | cons hr _ ih =>
      intro i hi
      cases i with
      | zero => simpa using hr
      | succ j => simpa using ih j (by simpa using hi)

/-- Dropping past an appended prefix. -/
theorem drop_len_append {α : Type} :
    ∀ (l1 l2 : List α) (m : Nat), (l1 ++ l2).drop (l1.length + m) = l2.drop m := by
  intro l1
  induction l1 with
  | nil => intro l2 m; simp
  | cons a t ih => intro l2 m; simpa [Nat.succ_add] using ih l2 m

/-!
Claims C9 and C10: the dimension accessors
-/

/-- A node whose two extents multiply to exactly 2 to the 64. -/
def overflowNode : HL_Node :=
  { newHL_Node "/n" with ndims := 2, dims := some [4294967296, 4294967296] }

/-- C9 counterexample: for a node with dimensions (2^32, 2^32) the code
returns the hsize_t product 0, not the product of the extents (2^64) —
and 0 is exactly the value the claim reserves for the absent-dimensions
case. -/
theorem claim_C9_counterexample :
    getHL_NodeNumberOfPoints overflowNode = 0 ∧
    getHL_NodeNumberOfPoints overflowNode ≠ ([4294967296, 4294967296] : List Nat).prod := by
  decide

/-- C9 (amended): `getHL_NodeNumberOfPoints` returns 1 for a scalar node,
the product of the extents reduced modulo 2^64 (hsize_t arithmetic) when
the dimension count is positive and the buffer holds that many extents,
and 0 when the dimension count is positive but the buffer is absent. -/
theorem claim_C9_numberOfPoints (node : HL_Node) :
    (node.ndims = 0 → getHL_NodeNumberOfPoints node = 1) ∧
    (∀ d, 0 < node.ndims → node.dims = some d → d.length = node.ndims.toNat →
        getHL_NodeNumberOfPoints node = d.prod % hsizeMod) ∧
    (0 < node.ndims → node.dims = none → getHL_NodeNumberOfPoints node = 0) := by
  refine ⟨fun h0 => by simp [getHL_NodeNumberOfPoints, h0], ?_, ?_⟩
  · intro d hpos hd hlen
    have hne : node.ndims ≠ 0 := by omega
    have hdne : d ≠ [] := by
      intro he
      rw [he] at hlen
      simp at hlen
      omega
    have htake : d.take node.ndims.toNat = d := by
      rw [← hlen]
      exact List.take_length d
    simp only [getHL_NodeNumberOfPoints, hd, if_neg hne, if_pos hpos, htake]
    rw [foldl_mulMod hsizeMod d hdne 1, Nat.one_mul]
  · intro hpos hd
    have hne : node.ndims ≠ 0 := by omega
    simp [getHL_NodeNumberOfPoints, hd, hne]

/-- A concrete (10, 10) node for the C9 witness. -/
def tenByTenNode : HL_Node :=
  { newHL_Node "/n" with ndims := 2, dims := some [10, 10] }

/-- C9 witness: the (10, 10) node of the spec example has 100 points. -/
theorem claim_C9_witness :
    getHL_NodeNumberOfPoints tenByTenNode = ([10, 10] : List Nat).prod % hsizeMod :=
  (claim_C9_numberOfPoints tenByTenNode).2.1 [10, 10] (by decide) rfl (by decide)

/-- C10: `getHL_NodeDimension` totally returns a value: 0 whenever the
index is negative, at or beyond the dimension count, or the dimensions
buffer is absent; and the extent at the index otherwise (the in-bounds
access being justified by the buffer holding `ndims` extents). -/
theorem claim_C10_getHL_NodeDimension_total (node : HL_Node) (index : Int) :
    ((index < 0 ∨ node.ndims ≤ index ∨ node.dims = none) →
        getHL_NodeDimension node index = 0) ∧
    (∀ d, node.dims = some d → 0 ≤ index → index < node.ndims →
        d.length = node.ndims.toNat →
        ∃ h : index.toNat < d.length,
          getHL_NodeDimension node index = d.get ⟨index.toNat, h⟩) := by
  constructor
  · intro h
    simp only [getHL_NodeDimension, if_pos h]
  · intro d hd h0 hlt hlen
    have hidx : index.toNat < d.length := by omega
    refine ⟨hidx, ?_⟩
    have hguard : ¬(index < 0 ∨ node.ndims ≤ index ∨ node.dims = none) := by
      push_neg
      exact ⟨by omega, by omega, by simp [hd]⟩
    simp only [getHL_NodeDimension]
    rw [if_neg hguard, hd]
    simp only [Option.getD_some]
    rw [List.getD_eq_getElem d 0 hidx]
    simp [List.get_eq_getElem]

/-- A concrete node for the C10 witness. -/
def dimWitnessNode : HL_Node :=
  { newHL_Node "/n" with ndims := 2, dims := some [10, 20] }

/-- C10 witness: out-of-range and in-range accesses on a concrete node. -/
theorem claim_C10_witness :
    getHL_NodeDimension dimWitnessNode (-1) = 0 ∧
    ∃ h : (1 : Int).toNat < ([10, 20] : List Nat).length,
      getHL_NodeDimension dimWitnessNode 1 = ([10, 20] : List Nat).get ⟨(1 : Int).toNat, h⟩ :=
  ⟨(claim_C10_getHL_NodeDimension_total dimWitnessNode (-1)).1 (by decide),
   (claim_C10_getHL_NodeDimension_total dimWitnessNode 1).2 [10, 20] rfl
     (by decide) (by decide) (by decide)⟩


/-!
Claim C8: node copying
-/

/-- The point count only reads the dimension fields. -/
theorem numberOfPoints_congr (a b : HL_Node) (h1 : a.ndims = b.ndims)
    (h2 : a.dims = b.dims) :
    getHL_NodeNumberOfPoints a = getHL_NodeNumberOfPoints b := by
  simp [getHL_NodeNumberOfPoints, h1, h2]

/-- C8: `copyHL_Node` produces a value-equal duplicate of a consistent
node: same name, type, dimensions, data bytes, raw bytes when present,
format, sizes, data kind, mark and compound description; the compression
field of the copy is the constructor default; the storage object handle of
the copy is always -1 (unbound, never the original handle); and when the
original owns an engine type handle the copy gets a freshly allocated one,
distinct from the original handle. Buffer independence is inherent in the
value semantics of the embedding: the copy holds its own equal-valued
lists. -/
theorem claim_C8_copyHL_Node (node : HL_Node) (nextId : Int) (b : List Nat)
    (hdims : (node.ndims = 0 ∧ node.dims = none) ∨
             (0 < node.ndims ∧ ∃ d, node.dims = some d ∧ d.length = node.ndims.toNat))
    (hdata : node.data = some b)
    (hlen : b.length = getHL_NodeNumberOfPoints node * node.dSize)
    (hraw : ∀ r, node.rawdata = some r →
        r.length = getHL_NodeNumberOfPoints node * node.rdSize)
    (hfresh : node.typeId < nextId) :
    ∀ c, c = (copyHL_Node node nextId).1 →
      c.name = node.name ∧ c.type = node.type ∧ c.ndims = node.ndims ∧ c.dims = node.dims ∧
      c.data = node.data ∧
      (∀ r, node.rawdata = some r → c.rawdata = some r ∧ c.rdSize = node.rdSize) ∧
      (node.rawdata = none → c.rawdata = none ∧ c.rdSize = 0) ∧
      c.format = node.format ∧ c.dSize = node.dSize ∧ c.dataType = node.dataType ∧
      c.mark = node.mark ∧ c.compoundDescription = node.compoundDescription ∧
      c.compression = none ∧ c.hdfId = -1 ∧
      (0 ≤ node.typeId → 0 ≤ c.typeId ∧ c.typeId ≠ node.typeId) ∧
      (node.typeId < 0 → c.typeId = -1) := by
  intro c hc
  obtain ⟨ty, nm, nd, dm, da, ra, fm, ti, ds, rs, dt, hi, mk, cd, cp⟩ := node
  dsimp only at hdims hdata hlen hraw hfresh hc ⊢
  subst hdata
  rcases hdims with ⟨h0, hnone⟩ | ⟨hpos, d, hd, hdl⟩
  · subst h0; subst hnone
    simp [getHL_NodeNumberOfPoints] at hlen hraw
    have htb : List.take ds b = b := by rw [← hlen]; exact List.take_length b
    cases ra with
    | some r =>
        have hr : List.take rs r = r := by
          rw [← hraw r rfl]; exact List.take_length r
        by_cases htid : 0 ≤ ti
        · subst hc
          simp [copyHL_Node, newHL_Node, setHL_NodeDimensions,
            copyHL_CompoundTypeDescription, getHL_NodeNumberOfPoints, htid, htb, hr] <;> omega
        · subst hc
          simp [copyHL_Node, newHL_Node, setHL_NodeDimensions,
            copyHL_CompoundTypeDescription, getHL_NodeNumberOfPoints, htid, htb, hr] <;> omega
    | none =>
        by_cases htid : 0 ≤ ti
        · subst hc
          simp [copyHL_Node, newHL_Node, setHL_NodeDimensions,
            copyHL_CompoundTypeDescription, getHL_NodeNumberOfPoints, htid, htb] <;> omega
        · subst hc
          simp [copyHL_Node, newHL_Node, setHL_NodeDimensions,
            copyHL_CompoundTypeDescription, getHL_NodeNumberOfPoints, htid, htb] <;> omega
  · subst hd
    have hne : nd ≠ 0 := by omega
    have htd : d.take nd.toNat = d := by rw [← hdl]; exact List.take_length d
    simp [getHL_NodeNumberOfPoints, hne, hpos, htd] at hlen hraw
    have htb : List.take (d.foldl (fun n x => n * x % hsizeMod) 1 * ds) b = b := by
      rw [← hlen]; exact List.take_length b
    cases ra with
    | some r =>
        have hr : List.take (d.foldl (fun n x => n * x % hsizeMod) 1 * rs) r = r := by
          rw [← hraw r rfl]; exact List.take_length r
        by_cases htid : 0 ≤ ti
        · subst hc
          simp [copyHL_Node, newHL_Node, setHL_NodeDimensions,
            copyHL_CompoundTypeDescription, getHL_NodeNumberOfPoints,
            hpos, hne, htd, htid, htb, hr] <;> omega
        · subst hc
          simp [copyHL_Node, newHL_Node, setHL_NodeDimensions,
            copyHL_CompoundTypeDescription, getHL_NodeNumberOfPoints,
            hpos, hne, htd, htid, htb, hr] <;> omega
    | none =>
        by_cases htid : 0 ≤ ti
        · subst hc
          simp [copyHL_Node, newHL_Node, setHL_NodeDimensions,
            copyHL_CompoundTypeDescription, getHL_NodeNumberOfPoints,
            hpos, hne, htd, htid, htb] <;> omega
        · subst hc
          simp [copyHL_Node, newHL_Node, setHL_NodeDimensions,
            copyHL_CompoundTypeDescription, getHL_NodeNumberOfPoints,
            hpos, hne, htd, htid, htb] <;> omega

/-- A concrete consistent node for the C8 witness. -/
def copyWitnessNode : HL_Node :=
  { newHL_Attribute "/a" with
      ndims := 2
      dims := some [2, 3]
      data := some [0, 1, 2, 3, 4, 5]
      dSize := 1
      typeId := 4
      mark := NMARK_CHANGED }

/-- C8 witness: the duplicate of a concrete node is value-equal with the
handle unbound and a fresh type handle. -/
theorem claim_C8_witness :
    (copyHL_Node copyWitnessNode 10).1.name = copyWitnessNode.name ∧
    (copyHL_Node copyWitnessNode 10).1.type = copyWitnessNode.type ∧
    (copyHL_Node copyWitnessNode 10).1.ndims = copyWitnessNode.ndims ∧
    (copyHL_Node copyWitnessNode 10).1.dims = copyWitnessNode.dims ∧
    (copyHL_Node copyWitnessNode 10).1.data = copyWitnessNode.data ∧
    (∀ r, copyWitnessNode.rawdata = some r →
        (copyHL_Node copyWitnessNode 10).1.rawdata = some r ∧
        (copyHL_Node copyWitnessNode 10).1.rdSize = copyWitnessNode.rdSize) ∧
    (copyWitnessNode.rawdata = none →
        (copyHL_Node copyWitnessNode 10).1.rawdata = none ∧
        (copyHL_Node copyWitnessNode 10).1.rdSize = 0) ∧
    (copyHL_Node copyWitnessNode 10).1.format = copyWitnessNode.format ∧
    (copyHL_Node copyWitnessNode 10).1.dSize = copyWitnessNode.dSize ∧
    (copyHL_Node copyWitnessNode 10).1.dataType = copyWitnessNode.dataType ∧
    (copyHL_Node copyWitnessNode 10).1.mark = copyWitnessNode.mark ∧
    (copyHL_Node copyWitnessNode 10).1.compoundDescription = copyWitnessNode.compoundDescription ∧
    (copyHL_Node copyWitnessNode 10).1.compression = none ∧
    (copyHL_Node copyWitnessNode 10).1.hdfId = -1 ∧
    (0 ≤ copyWitnessNode.typeId →
        0 ≤ (copyHL_Node copyWitnessNode 10).1.typeId ∧
        (copyHL_Node copyWitnessNode 10).1.typeId ≠ copyWitnessNode.typeId) ∧
    (copyWitnessNode.typeId < 0 → (copyHL_Node copyWitnessNode 10).1.typeId = -1) :=
  claim_C8_copyHL_Node copyWitnessNode 10 [0, 1, 2, 3, 4, 5]
    (Or.inr ⟨by decide, [2, 3], rfl, by decide⟩) rfl (by decide)
    (fun r hr => by
      simp [copyWitnessNode, newHL_Attribute, newHL_NodeWithType, setHL_NodeType,
        newHL_Node] at hr)
    (by decide) ((copyHL_Node copyWitnessNode 10).1) rfl

/-!
Concrete engine states and node lists used by the code-defect claims
-/

/-- Engine state with one existing file and an otherwise empty container. -/
def stExisting : H5State :=
  { nextId := 1, handles := [], files := ["f.h5"], groups := [], datasets := [],
    committedIds := [], commitSetsCommitted := true, trace := [] }

/-- Engine state with no files, normal commit behaviour. -/
def stEmpty : H5State :=
  { stExisting with files := [] }

/-- Engine state with no files in which a successful type commit does not
make the committed-status probe report positive afterwards — one of the
behaviours the create/open/write contract of the external engine admits,
and the exact contingency the probe check in `doWriteHdf5Datatype`
addresses. -/
def stNoCommitProbe : H5State :=
  { stEmpty with commitSetsCommitted := false }

/-- A freshly created dataset node under the root. -/
def createdDatasetNode : HL_Node :=
  { newHL_Dataset "/d" with
      ndims := 1
      dims := some [2]
      data := some [1, 2]
      format := HLHDF_INT
      dSize := 1
      dataType := HL_ARRAY }

/-- Node list of the existing file with the one freshly created dataset. -/
def nlUpdDataset : HL_NodeList :=
  { filename := "f.h5", nodes := [createdDatasetNode] }

/-- A call-level zlib compression argument. -/
def comprZlib6 : HL_Compression :=
  { type := CT_ZLIB, level := 6, szlib_mask := 0, szlib_px_per_block := 0 }

/-- C2 (defect evidence): updating a list whose only Created node is a
dataset under the root of an existing file fails — with and without a
call-level compression argument — because the dataset dispatch hands the
stale, never-opened local `gid` (-1) to `doAppendHdf5Dataset` instead of
the open file handle, so the parent open fails; no engine object is ever
created (the trace is unchanged). -/
theorem claim_C2_update_dataset_stale_handle :
    (updateHL_NodeList stExisting nlUpdDataset none).status = 0 ∧
    (updateHL_NodeList stExisting nlUpdDataset (some comprZlib6)).status = 0 ∧
    (updateHL_NodeList stExisting nlUpdDataset none).st.trace = stExisting.trace := by
  decide

/-- Engine state holding one open handle (1) on the root. -/
def stOneHandle : H5State :=
  { nextId := 2, handles := [(1, "/")], files := [], groups := [], datasets := [],
    committedIds := [], commitSetsCommitted := true, trace := [] }

/-- A compression argument whose selector is none. -/
def comprNone : HL_Compression :=
  { type := CT_NONE, level := 6, szlib_mask := 0, szlib_px_per_block := 0 }

/-- C3 (defect evidence): `createSimpleDataset` called with a compression
argument whose selector is none applies chunking and deflate anyway and
overwrites the selector of the caller struct with zlib — the embedded
assignment (`=` for `==`) and the tautological level test in the guard. -/
theorem claim_C3_none_selector_gets_deflate :
    (createSimpleDataset stOneHandle 1 1000 "d" 1 (some [4]) (some [7, 7, 7, 7])
        (some comprNone)).2.1 = some { comprNone with type := CT_ZLIB } ∧
    (createSimpleDataset stOneHandle 1 1000 "d" 1 (some [4]) (some [7, 7, 7, 7])
        (some comprNone)).2.1 ≠ some comprNone ∧
    0 ≤ (createSimpleDataset stOneHandle 1 1000 "d" 1 (some [4]) (some [7, 7, 7, 7])
        (some comprNone)).2.2 ∧
    (createSimpleDataset stOneHandle 1 1000 "d" 1 (some [4]) (some [7, 7, 7, 7])
        (some comprNone)).1.trace =
      [H5Call.chunkSet 1, H5Call.deflateSet 6, H5Call.datasetCreated "/d" true,
       H5Call.dataWritten] := by
  decide

/-- A named type node carrying a self-defined type handle. -/
def namedTypeNode : HL_Node :=
  { newHL_Datatype "/t" with hdfId := 7 }

/-- Node list holding only the named type node. -/
def nlTypeOnly : HL_NodeList :=
  { filename := "t.h5", nodes := [namedTypeNode] }

/-- C4 (defect evidence): writing a list whose only node is a named type,
against an engine on which the committed-status probe stays non-positive
after the successful commit call, still returns success — the probe
failure in `doWriteHdf5Datatype` is only logged, the early return is
missing — even though the final engine state reports the type handle as
not committed. -/
theorem claim_C4_commit_probe_ignored :
    (writeHL_NodeList stNoCommitProbe nlTypeOnly none none).status = 1 ∧
    H5Tcommitted (writeHL_NodeList stNoCommitProbe nlTypeOnly none none).st 7 = 0 ∧
    (writeHL_NodeList stNoCommitProbe nlTypeOnly none none).st.trace =
      [H5Call.typeCommitted "/t" 7] := by
  decide

/-- A node of an unrecognized type (the constructor default) under the
root, with the Created mark of every fresh node. -/
def unrecNode : HL_Node := newHL_Node "/x"

/-- C5 counterexample: a list whose only node has an unrecognized type is
written and updated with success status 1 — neither entry point reports
failure or aborts at the unrecognized dispatch. -/
theorem claim_C5_counterexample :
    unrecNode.type = UNDEFINED_ID ∧
    (writeHL_NodeList stEmpty { filename := "u.h5", nodes := [unrecNode] } none none).status = 1 ∧
    (updateHL_NodeList stExisting { filename := "f.h5", nodes := [unrecNode] } none).status = 1 := by
  decide

/-- A freshly created scalar attribute node under the root. -/
def createdAttrNode : HL_Node :=
  { newHL_Attribute "/a" with data := some [5], format := HLHDF_INT }

/-- Node list of the existing file with a created attribute and a created
named type. -/
def nlAttrAndType : HL_NodeList :=
  { filename := "f.h5", nodes := [createdAttrNode, namedTypeNode] }

/-- C6 counterexample: after a successful update of a list holding a
Created attribute and a Created named type, the attribute mark is reset to
Original but the named type node — processed by the TYPE dispatch — still
has mark Created. -/
theorem claim_C6_counterexample :
    namedTypeNode.mark = NMARK_CREATED ∧ namedTypeNode.type = TYPE_ID ∧
    (updateHL_NodeList stExisting nlAttrAndType none).status = 1 ∧
    ((updateHL_NodeList stExisting nlAttrAndType none).nodelist.nodes.getD 0
        (newHL_Node "")).mark = NMARK_ORIGINAL ∧
    ((updateHL_NodeList stExisting nlAttrAndType none).nodelist.nodes.getD 1
        (newHL_Node "")).mark = NMARK_CREATED := by
  decide

/-- A created group node under the root. -/
def wGroupNode : HL_Node := newHL_Group "/g"

/-- An attribute node whose parent path names no node of the list. -/
def orphanAttrNode : HL_Node :=
  { newHL_Attribute "/x/a" with data := some [5], format := HLHDF_INT }

/-- The list with a group first and then the orphan attribute. -/
def nlMissingParent : HL_NodeList :=
  { filename := "w.h5", nodes := [wGroupNode, orphanAttrNode] }

/-- C7 counterexample: the write call fails on the missing parent, but the
group handle the call opened for the earlier node ("/g", handle 3, stored
into that node) is still open when the call returns — the fail path closes
only the file and root-group handles of the call itself. -/
theorem claim_C7_counterexample :
    (writeHL_NodeList stEmpty nlMissingParent none none).status = 0 ∧
    (writeHL_NodeList stEmpty nlMissingParent none none).st.handles = [(3, "/g")] ∧
    ((writeHL_NodeList stEmpty nlMissingParent none none).nodelist.nodes.getD 0
        (newHL_Node "")).hdfId = 3 := by
  decide

/-!
Structural lemmas about the per-node helpers
-/

@[simp] theorem closeId_trace (st : H5State) (id : Int) :
    (closeId st id).trace = st.trace := rfl

@[simp] theorem allocHandle_trace (st : H5State) (p : String) :
    ((allocHandle st p).2).trace = st.trace := rfl

@[simp] theorem resolveNodeTypeId_name (n : HL_Node) :
    (resolveNodeTypeId n).name = n.name := by
  unfold resolveNodeTypeId; split <;> rfl

@[simp] theorem resolveNodeTypeId_mark (n : HL_Node) :
    (resolveNodeTypeId n).mark = n.mark := by
  unfold resolveNodeTypeId; split <;> rfl

theorem doWriteHdf5Attribute_child_name (st : H5State) (g : Int) (pn : Option HL_Node)
    (p : String) (n : HL_Node) (c : String) :
    (doWriteHdf5Attribute st g pn p n c).child.name = n.name := by
  simp only [doWriteHdf5Attribute]
  repeat' split
  all_goals simp

theorem doWriteHdf5Group_child_name (st : H5State) (g : Int) (pn : Option HL_Node)
    (p : String) (n : HL_Node) (c : String) :
    (doWriteHdf5Group st g pn p n c).child.name = n.name := by
  simp only [doWriteHdf5Group]
  repeat' split
  all_goals simp

theorem doWriteHdf5Dataset_child_name (st : H5State) (g : Int) (pn : Option HL_Node)
    (p : String) (n : HL_Node) (c : String) (comp : Option HL_Compression) :
    (doWriteHdf5Dataset st g pn p n c comp).child.name = n.name := by
  simp only [doWriteHdf5Dataset]
  repeat' split
  all_goals simp

theorem doWriteHdf5Datatype_child (st : H5State) (l : Int) (n : HL_Node) :
    (doWriteHdf5Datatype st l n).child = n := by
  simp only [doWriteHdf5Datatype]
  repeat' split
  all_goals simp

theorem doWriteHdf5Reference_child (st : H5State) (g f : Int) (pn : Option HL_Node)
    (p : String) (n : HL_Node) (c : String) :
    (doWriteHdf5Reference st g f pn p n c).child = n := by
  simp only [doWriteHdf5Reference]
  repeat' split
  all_goals simp

theorem doAppendHdf5Attribute_mark (st : H5State) (f : Int) (p : String)
    (n : HL_Node) (c : String) :
    (doAppendHdf5Attribute st f p n c).status = 1 →
    (doAppendHdf5Attribute st f p n c).child.mark = NMARK_ORIGINAL := by
  simp only [doAppendHdf5Attribute]
  repeat' split
  all_goals simp

theorem doAppendHdf5Group_mark (st : H5State) (f : Int) (p : String)
    (n : HL_Node) (c : String) :
    (doAppendHdf5Group st f p n c).status = 1 →
    (doAppendHdf5Group st f p n c).child.mark = NMARK_ORIGINAL := by
  simp only [doAppendHdf5Group]
  repeat' split
  all_goals simp

theorem doAppendHdf5Dataset_mark (st : H5State) (f : Int) (p : String)
    (n : HL_Node) (c : String) (comp : Option HL_Compression) :
    (doAppendHdf5Dataset st f p n c comp).status = 1 →
    (doAppendHdf5Dataset st f p n c comp).child.mark = NMARK_ORIGINAL := by
  simp only [doAppendHdf5Dataset]
  repeat' split
  all_goals simp

set_option maxHeartbeats 1600000 in
theorem updateStep_ok_mark (st : H5State) (f g : Int) (comp : Option HL_Compression)
    (ctx : List HL_Node) (n : HL_Node) (st2 : H5State) (n2 : HL_Node)
    (c2 : Option HL_Compression)
    (h : updateStep st f g comp ctx n = StepOut.ok st2 n2 c2)
    (ht : n.type = ATTRIBUTE_ID ∨ n.type = GROUP_ID ∨ n.type = DATASET_ID) :
    n2.mark = NMARK_ORIGINAL := by
  simp only [updateStep] at h
  repeat' split at h
  all_goals
    first
    | exact StepOut.noConfusion h
    | (injection h with h1 h2 h3
       subst h2
       first
       | exact doAppendHdf5Attribute_mark _ _ _ _ _ ‹_›
       | exact doAppendHdf5Group_mark _ _ _ _ _ ‹_›
       | exact doAppendHdf5Dataset_mark _ _ _ _ _ _ ‹_›
       | simp_all)

set_option maxHeartbeats 1600000 in
theorem updateStep_typeRef_ok (st : H5State) (f g : Int) (comp : Option HL_Compression)
    (ctx : List HL_Node) (n : HL_Node) (st2 : H5State) (n2 : HL_Node)
    (c2 : Option HL_Compression)
    (ht : n.type = TYPE_ID ∨ n.type = REFERENCE_ID)
    (h : updateStep st f g comp ctx n = StepOut.ok st2 n2 c2) :
    n2 = n := by
  simp only [updateStep] at h
  repeat' split at h
  all_goals
    first
    | exact StepOut.noConfusion h
    | (injection h with h1 h2 h3
       subst h2
       first
       | exact doWriteHdf5Datatype_child _ _ _
       | rfl
       | simp_all)

set_option maxHeartbeats 1600000 in
theorem updateStep_typeRef_fail (st : H5State) (f g : Int) (comp : Option HL_Compression)
    (ctx : List HL_Node) (n : HL_Node) (st2 : H5State) (n2 : HL_Node)
    (ht : n.type = TYPE_ID ∨ n.type = REFERENCE_ID)
    (h : updateStep st f g comp ctx n = StepOut.fail st2 n2) :
    n2 = n := by
  simp only [updateStep] at h
  repeat' split at h
  all_goals
    first
    | exact StepOut.noConfusion h
    | (injection h with h1 h2
       subst h2
       first
       | exact doWriteHdf5Datatype_child _ _ _
       | rfl
       | simp_all)

/-- The per-node relation the update loop establishes between every entry
node and the node left at its position: nodes not marked Created are
untouched; on overall success, every Created attribute, group or dataset
node ends with mark Original; named type and reference nodes are never
mutated by the update dispatch. -/
def UpdRel (s : Int) (n n2 : HL_Node) : Prop :=
  (n.mark ≠ NMARK_CREATED → n2 = n) ∧
  (s = 1 → n.mark = NMARK_CREATED →
      (n.type = ATTRIBUTE_ID ∨ n.type = GROUP_ID ∨ n.type = DATASET_ID) →
      n2.mark = NMARK_ORIGINAL) ∧
  ((n.type = TYPE_ID ∨ n.type = REFERENCE_ID) → n2 = n)

theorem updRel_refl_of_skip (s : Int) (n : HL_Node) (hm : n.mark ≠ NMARK_CREATED) :
    UpdRel s n n :=
  ⟨fun _ => rfl, fun _ hc _ => absurd hc hm, fun _ => rfl⟩

theorem updRel_zero_refl : ∀ (l : List HL_Node), List.Forall₂ (UpdRel 0) l l
  | [] => List.Forall₂.nil
  | n :: t =>
      List.Forall₂.cons
        ⟨fun _ => rfl, fun h => absurd h (by decide), fun _ => rfl⟩
        (updRel_zero_refl t)

theorem updateLoop_spec (fileId gid : Int) :
    ∀ (todo done : List HL_Node) (st : H5State) (comp : Option HL_Compression),
      ∃ todo2,
        (updateLoop fileId gid st comp done todo).nodes = done.reverse ++ todo2 ∧
        List.Forall₂ (UpdRel (updateLoop fileId gid st comp done todo).status) todo todo2 := by
  intro todo
  induction todo with
  | nil =>
      intro done st comp
      exact ⟨[], by simp [updateLoop], List.Forall₂.nil⟩
  | cons n rest ih =>
      intro done st comp
      by_cases hm : n.mark = NMARK_CREATED
      · cases hstep : updateStep st fileId gid comp (done.reverse ++ n :: rest) n with
        | fail st2 n2 =>
            have hres : updateLoop fileId gid st comp done (n :: rest) =
                ⟨st2, done.reverse ++ n2 :: rest, 0⟩ := by
              simp only [updateLoop, if_pos hm, hstep]
            refine ⟨n2 :: rest, by rw [hres], ?_⟩
            rw [hres]
            dsimp only
            refine List.Forall₂.cons
              ⟨fun hne => absurd hm hne, fun h0 => absurd h0 (by decide), ?_⟩
              (updRel_zero_refl rest)
            intro ht
            exact updateStep_typeRef_fail st fileId gid comp (done.reverse ++ n :: rest) n
              st2 n2 ht hstep
        | ok st2 n2 c2 =>
            have hres : updateLoop fileId gid st comp done (n :: rest) =
                updateLoop fileId gid st2 c2 (n2 :: done) rest := by
              simp only [updateLoop, if_pos hm, hstep]
            obtain ⟨t2, hnodes, hrel⟩ := ih (n2 :: done) st2 c2
            refine ⟨n2 :: t2, ?_, ?_⟩
            · rw [hres, hnodes]
              simp [List.reverse_cons, List.append_assoc]
            · rw [hres]
              refine List.Forall₂.cons ⟨fun hne => absurd hm hne, ?_, ?_⟩ hrel
              · intro _ _ htype
                exact updateStep_ok_mark st fileId gid comp (done.reverse ++ n :: rest) n
                  st2 n2 c2 hstep htype
              · intro ht
                exact updateStep_typeRef_ok st fileId gid comp (done.reverse ++ n :: rest) n
                  st2 n2 c2 ht hstep
      · have hres : updateLoop fileId gid st comp done (n :: rest) =
            updateLoop fileId gid st comp (n :: done) rest := by
          simp only [updateLoop, if_neg hm]
        obtain ⟨t2, hnodes, hrel⟩ := ih (n :: done) st comp
        refine ⟨n :: t2, ?_, ?_⟩
        · rw [hres, hnodes]
          simp [List.reverse_cons, List.append_assoc]
        · rw [hres]
          exact List.Forall₂.cons (updRel_refl_of_skip _ n hm) hrel

theorem updateLoop_skip_all (fileId gid : Int) :
    ∀ (todo done : List HL_Node) (st : H5State) (comp : Option HL_Compression),
      (∀ n ∈ todo, n.mark ≠ NMARK_CREATED) →
      updateLoop fileId gid st comp done todo = ⟨st, done.reverse ++ todo, 1⟩ := by
  intro todo
  induction todo with
  | nil => intro done st comp _; simp [updateLoop]
  | cons n rest ih =>
      intro done st comp h
      have hm : n.mark ≠ NMARK_CREATED := h n (by simp)
      have hrest : ∀ m ∈ rest, m.mark ≠ NMARK_CREATED := fun m hmem => h m (by simp [hmem])
      simp only [updateLoop, if_neg hm]
      rw [ih (n :: done) st comp hrest]
      simp

theorem updateHL_NodeList_spec (st : H5State) (nl : HL_NodeList)
    (comp : Option HL_Compression) :
    ∃ t2, (updateHL_NodeList st nl comp).nodelist.nodes = t2 ∧
      List.Forall₂ (UpdRel (updateHL_NodeList st nl comp).status) nl.nodes t2 := by
  by_cases hopen : nl.filename ∈ st.files
  · by_cases hneg : st.nextId < 0
    · refine ⟨nl.nodes, ?_, ?_⟩
      · simp [updateHL_NodeList, openHlHdfFile, hopen, allocHandle, hneg]
      · have hst : (updateHL_NodeList st nl comp).status = 0 := by
          simp [updateHL_NodeList, openHlHdfFile, hopen, allocHandle, hneg]
        rw [hst]
        exact updRel_zero_refl nl.nodes
    · obtain ⟨t2, hnodes, hrel⟩ := updateLoop_spec st.nextId (-1) nl.nodes []
        { st with nextId := st.nextId + 1, handles := (st.nextId, "/") :: st.handles } comp
      refine ⟨t2, ?_, ?_⟩
      · rw [show (updateHL_NodeList st nl comp).nodelist.nodes =
            (updateLoop st.nextId (-1)
              { st with nextId := st.nextId + 1, handles := (st.nextId, "/") :: st.handles }
              comp [] nl.nodes).nodes from by
            simp [updateHL_NodeList, openHlHdfFile, hopen, allocHandle, hneg]]
        rw [hnodes]
        simp
      · rw [show (updateHL_NodeList st nl comp).status =
            (updateLoop st.nextId (-1)
              { st with nextId := st.nextId + 1, handles := (st.nextId, "/") :: st.handles }
              comp [] nl.nodes).status from by
            simp [updateHL_NodeList, openHlHdfFile, hopen, allocHandle, hneg]]
        exact hrel
  · refine ⟨nl.nodes, by simp [updateHL_NodeList, openHlHdfFile, hopen], ?_⟩
    have hst : (updateHL_NodeList st nl comp).status = 0 := by
      simp [updateHL_NodeList, openHlHdfFile, hopen]
    rw [hst]
    exact updRel_zero_refl nl.nodes

theorem updateHL_NodeList_no_created (st : H5State) (nl : HL_NodeList)
    (comp : Option HL_Compression) (h : ∀ n ∈ nl.nodes, n.mark ≠ NMARK_CREATED) :
    (updateHL_NodeList st nl comp).st.trace = st.trace ∧
    (updateHL_NodeList st nl comp).nodelist.nodes = nl.nodes := by
  by_cases hopen : nl.filename ∈ st.files
  · by_cases hneg : st.nextId < 0
    · constructor <;> simp [updateHL_NodeList, openHlHdfFile, hopen, allocHandle, hneg]
    · have hloop := updateLoop_skip_all st.nextId (-1) nl.nodes []
        { st with nextId := st.nextId + 1, handles := (st.nextId, "/") :: st.handles } comp h
      constructor <;>
        simp [updateHL_NodeList, openHlHdfFile, hopen, allocHandle, hneg, hloop]
  · constructor <;> simp [updateHL_NodeList, openHlHdfFile, hopen]

/-!
Claims C1 and C6: the update loop and the lifecycle marks
-/

/-- C1: `updateHL_NodeList` writes only nodes whose mark is Created at
entry. Every node whose mark is Original, Changed or Selected is left with
exactly its entry value at its position, whatever the outcome of the call;
and when no node of the list is marked Created the storage engine receives
no create/write call at all (the engine trace is unchanged) and the whole
list is returned untouched. -/
theorem claim_C1_update_only_created (st : H5State) (nl : HL_NodeList)
    (comp : Option HL_Compression) :
    (∀ i, i < nl.nodes.length →
        ((nl.nodes.getD i (newHL_Node "")).mark = NMARK_ORIGINAL ∨
         (nl.nodes.getD i (newHL_Node "")).mark = NMARK_CHANGED ∨
         (nl.nodes.getD i (newHL_Node "")).mark = NMARK_SELECT) →
        (updateHL_NodeList st nl comp).nodelist.nodes.getD i (newHL_Node "") =
          nl.nodes.getD i (newHL_Node "")) ∧
    ((∀ n ∈ nl.nodes, n.mark ≠ NMARK_CREATED) →
        (updateHL_NodeList st nl comp).st.trace = st.trace ∧
        (updateHL_NodeList st nl comp).nodelist.nodes = nl.nodes) := by
  constructor
  · intro i hi hmarks
    have hne : (nl.nodes.getD i (newHL_Node "")).mark ≠ NMARK_CREATED := by
      rcases hmarks with h | h | h <;> rw [h] <;> decide
    obtain ⟨t2, hnodes, hrel⟩ := updateHL_NodeList_spec st nl comp
    rw [hnodes]
    exact (forall2_getD (newHL_Node "") hrel i hi).1 hne
  · exact updateHL_NodeList_no_created st nl comp

/-- A node read from storage, still unmodified. -/
def origNode : HL_Node :=
  { newHL_Node "/o" with mark := NMARK_ORIGINAL }

/-- C1 witness: updating a list whose only node is Original leaves the node
and the engine trace unchanged. -/
theorem claim_C1_witness :
    (updateHL_NodeList stExisting { filename := "f.h5", nodes := [origNode] }
        none).nodelist.nodes.getD 0 (newHL_Node "") =
      ([origNode].getD 0 (newHL_Node "")) ∧
    (updateHL_NodeList stExisting { filename := "f.h5", nodes := [origNode] }
        none).st.trace = stExisting.trace :=
  ⟨(claim_C1_update_only_created stExisting { filename := "f.h5", nodes := [origNode] }
      none).1 0 (by decide) (Or.inl (by decide)),
   ((claim_C1_update_only_created stExisting { filename := "f.h5", nodes := [origNode] }
      none).2 (by decide)).1⟩

/-- C6 (amended): after a successful `updateHL_NodeList` call, every node
that was marked Created at entry and has type Attribute, Group or Dataset
has mark Original; nodes of type NamedType or Reference are returned
exactly as they were — the TYPE dispatch commits the type but never resets
the mark, and references are not dispatched by the update switch at all. -/
theorem claim_C6_marks_after_update (st : H5State) (nl : HL_NodeList)
    (comp : Option HL_Compression) :
    ((updateHL_NodeList st nl comp).status = 1 →
      ∀ i, i < nl.nodes.length →
        (nl.nodes.getD i (newHL_Node "")).mark = NMARK_CREATED →
        ((nl.nodes.getD i (newHL_Node "")).type = ATTRIBUTE_ID ∨
         (nl.nodes.getD i (newHL_Node "")).type = GROUP_ID ∨
         (nl.nodes.getD i (newHL_Node "")).type = DATASET_ID) →
        ((updateHL_NodeList st nl comp).nodelist.nodes.getD i (newHL_Node "")).mark =
          NMARK_ORIGINAL) ∧
    (∀ i, i < nl.nodes.length →
        ((nl.nodes.getD i (newHL_Node "")).type = TYPE_ID ∨
         (nl.nodes.getD i (newHL_Node "")).type = REFERENCE_ID) →
        (updateHL_NodeList st nl comp).nodelist.nodes.getD i (newHL_Node "") =
          nl.nodes.getD i (newHL_Node "")) := by
  obtain ⟨t2, hnodes, hrel⟩ := updateHL_NodeList_spec st nl comp
  constructor
  · intro hs i hi hmark htype
    rw [hnodes]
    exact (forall2_getD (newHL_Node "") hrel i hi).2.1 hs hmark htype
  · intro i hi htype
    rw [hnodes]
    exact (forall2_getD (newHL_Node "") hrel i hi).2.2 htype

/-- C6 witness: in the successful update of `nlAttrAndType`, the Created
attribute at position 0 ends with mark Original, and the named type node at
position 1 is returned unchanged. -/
theorem claim_C6_witness :
    ((updateHL_NodeList stExisting nlAttrAndType none).nodelist.nodes.getD 0
        (newHL_Node "")).mark = NMARK_ORIGINAL ∧
    (updateHL_NodeList stExisting nlAttrAndType none).nodelist.nodes.getD 1
        (newHL_Node "") = nlAttrAndType.nodes.getD 1 (newHL_Node "") :=
  ⟨(claim_C6_marks_after_update stExisting nlAttrAndType none).1 (by decide) 0
      (by decide) (by decide) (Or.inl (by decide)),
   (claim_C6_marks_after_update stExisting nlAttrAndType none).2 1 (by decide)
      (Or.inl (by decide))⟩

set_option maxHeartbeats 1600000 in
theorem writeStep_ok_name (st : H5State) (f g : Int) (comp : Option HL_Compression)
    (ctx : List HL_Node) (n : HL_Node) (st2 : H5State) (n2 : HL_Node)
    (c2 : Option HL_Compression)
    (h : writeStep st f g comp ctx n = StepOut.ok st2 n2 c2) :
    n2.name = n.name := by
  simp only [writeStep] at h
  repeat' split at h
  all_goals
    first
    | exact StepOut.noConfusion h
    | (injection h with h1 h2 h3
       subst h2
       first
       | exact doWriteHdf5Attribute_child_name _ _ _ _ _ _
       | exact doWriteHdf5Group_child_name _ _ _ _ _ _
       | exact doWriteHdf5Dataset_child_name _ _ _ _ _ _ _
       | (rw [doWriteHdf5Datatype_child])
       | (rw [doWriteHdf5Reference_child])
       | rfl)

set_option maxHeartbeats 1600000 in
theorem writeStep_fail_name (st : H5State) (f g : Int) (comp : Option HL_Compression)
    (ctx : List HL_Node) (n : HL_Node) (st2 : H5State) (n2 : HL_Node)
    (h : writeStep st f g comp ctx n = StepOut.fail st2 n2) :
    n2.name = n.name := by
  simp only [writeStep] at h
  repeat' split at h
  all_goals
    first
    | exact StepOut.noConfusion h
    | (injection h with h1 h2
       subst h2
       first
       | exact doWriteHdf5Attribute_child_name _ _ _ _ _ _
       | exact doWriteHdf5Group_child_name _ _ _ _ _ _
       | exact doWriteHdf5Dataset_child_name _ _ _ _ _ _ _
       | (rw [doWriteHdf5Datatype_child])
       | (rw [doWriteHdf5Reference_child])
       | rfl)

theorem writeStep_fail_of_missing_parent (st : H5State) (f g : Int)
    (comp : Option HL_Compression) (ctx : List HL_Node) (n : HL_Node) (p c : String)
    (hx : extractParentChildName n = some (p, c)) (hp : p ≠ "")
    (habs : ∀ m ∈ ctx, m.name ≠ p) :
    writeStep st f g comp ctx n = StepOut.fail st n := by
  have hfind : getHL_Node ctx p = none := by
    rw [getHL_Node, List.find?_eq_none]
    intro m hm
    simp [habs m hm]
  simp only [writeStep, hx]
  simp [hp, hfind]

theorem writeLoop_missing_parent (fileId gid : Int) (p c : String) (hp : p ≠ "") :
    ∀ (todo done : List HL_Node) (st : H5State) (comp : Option HL_Compression),
      (∀ m ∈ done.reverse ++ todo, m.name ≠ p) →
      (∃ n ∈ todo, extractParentChildName n = some (p, c)) →
      (writeLoop fileId gid st comp done todo).status = 0 := by
  intro todo
  induction todo with
  | nil =>
      intro done st comp _ hex
      obtain ⟨n, hn, _⟩ := hex
      simp at hn
  | cons n rest ih =>
      intro done st comp hnames hex
      cases hstep : writeStep st fileId gid comp (done.reverse ++ n :: rest) n with
      | fail st2 n2 =>
          have hres : writeLoop fileId gid st comp done (n :: rest) =
              ⟨st2, done.reverse ++ n2 :: rest, 0⟩ := by
            simp only [writeLoop, hstep]
          rw [hres]
      | ok st2 n2 c2 =>
          obtain ⟨m, hm, hmx⟩ := hex
          rcases List.mem_cons.mp hm with rfl | hmrest
          · have hf := writeStep_fail_of_missing_parent st fileId gid comp
              (done.reverse ++ m :: rest) m p c hmx hp hnames
            rw [hstep] at hf
            exact StepOut.noConfusion hf
          · have hres : writeLoop fileId gid st comp done (n :: rest) =
                writeLoop fileId gid st2 c2 (n2 :: done) rest := by
              simp only [writeLoop, hstep]
            rw [hres]
            have hdone : ∀ m2 ∈ done, m2.name ≠ p := fun m2 h2 =>
              hnames m2 (by simp [h2])
            have hrest : ∀ m2 ∈ rest, m2.name ≠ p := fun m2 h2 =>
              hnames m2 (by simp [h2])
            have hn2 : n2.name ≠ p := by
              rw [writeStep_ok_name st fileId gid comp (done.reverse ++ n :: rest) n
                st2 n2 c2 hstep]
              exact hnames n (by simp)
            refine ih (n2 :: done) st2 c2 ?_ ⟨m, hmrest, hmx⟩
            intro m2 hm2
            simp only [List.reverse_cons, List.append_assoc, List.mem_append,
              List.mem_reverse, List.mem_cons, List.mem_singleton,
              List.not_mem_nil, or_false, false_or] at hm2
            rcases hm2 with h2 | h2 | h2
            · exact hdone m2 h2
            · rw [h2]; exact hn2
            · exact hrest m2 h2

theorem writeLoop_fail_suffix (fileId gid : Int) :
    ∀ (todo done : List HL_Node) (st : H5State) (comp : Option HL_Compression),
      (writeLoop fileId gid st comp done todo).status = 0 →
      ∃ k, k < todo.length ∧
        (writeLoop fileId gid st comp done todo).nodes.drop (done.length + k + 1) =
          todo.drop (k + 1) := by
  intro todo
  induction todo with
  | nil =>
      intro done st comp h
      simp [writeLoop] at h
  | cons n rest ih =>
      intro done st comp h
      cases hstep : writeStep st fileId gid comp (done.reverse ++ n :: rest) n with
      | fail st2 n2 =>
          have hres : writeLoop fileId gid st comp done (n :: rest) =
              ⟨st2, done.reverse ++ n2 :: rest, 0⟩ := by
            simp only [writeLoop, hstep]
          refine ⟨0, by simp, ?_⟩
          rw [hres]
          have hd := drop_len_append done.reverse (n2 :: rest) 1
          simpa [List.length_reverse] using hd
      | ok st2 n2 c2 =>
          have hres : writeLoop fileId gid st comp done (n :: rest) =
              writeLoop fileId gid st2 c2 (n2 :: done) rest := by
            simp only [writeLoop, hstep]
          rw [hres] at h ⊢
          obtain ⟨k, hk, hdrop⟩ := ih (n2 :: done) st2 c2 h
          refine ⟨k + 1, by simpa using Nat.succ_lt_succ hk, ?_⟩
          rw [show done.length + (k + 1) + 1 = (n2 :: done).length + k + 1 from by
            simp [List.length_cons]; omega]
          rw [show (n :: rest).drop (k + 1 + 1) = rest.drop (k + 1) from rfl]
          exact hdrop

/-!
Claims C5 and C7: dispatch errors in the write path
-/

/-- C7 (amended): in `writeHL_NodeList`, whenever some node of the list has
a non-empty parent component whose path names no node of the list, the
whole write call returns failure, and the nodes after the position at which
the loop stopped are returned untouched (no further node is written). The
handles the call stored into earlier nodes are not all closed — see the
accompanying counterexample. -/
theorem claim_C7_write_missing_parent_fails (st : H5State) (nl : HL_NodeList)
    (prop : Option HL_FileCreationProperty)
    (comp : Option HL_Compression) (n : HL_Node) (p c : String)
    (hn : n ∈ nl.nodes) (hx : extractParentChildName n = some (p, c)) (hp : p ≠ "")
    (habs : ∀ m ∈ nl.nodes, m.name ≠ p) :
    (writeHL_NodeList st nl prop comp).status = 0 ∧
    ∃ k, k < nl.nodes.length ∧
      (writeHL_NodeList st nl prop comp).nodelist.nodes.drop (k + 1) =
        nl.nodes.drop (k + 1) := by
  have hlen : 0 < nl.nodes.length := List.length_pos.mpr (List.ne_nil_of_mem hn)
  by_cases hneg : st.nextId < 0
  · constructor
    · simp [writeHL_NodeList, createHlHdfFile, allocHandle, hneg]
    · exact ⟨0, hlen, by simp [writeHL_NodeList, createHlHdfFile, allocHandle, hneg]⟩
  · have hneg2 : ¬st.nextId + 1 < 0 := by omega
    have hnames : ∀ m ∈ ([] : List HL_Node).reverse ++ nl.nodes, m.name ≠ p := by
      simpa using habs
    have key : ∀ (st2 : H5State),
        (writeLoop st.nextId (st.nextId + 1) st2 comp [] nl.nodes).status = 0 ∧
        ∃ k, k < nl.nodes.length ∧
          (writeLoop st.nextId (st.nextId + 1) st2 comp [] nl.nodes).nodes.drop (k + 1) =
            nl.nodes.drop (k + 1) := by
      intro st2
      have hs := writeLoop_missing_parent st.nextId (st.nextId + 1) p c hp nl.nodes []
        st2 comp hnames ⟨n, hn, hx⟩
      obtain ⟨k, hk, hdrop⟩ := writeLoop_fail_suffix st.nextId (st.nextId + 1) nl.nodes []
        st2 comp hs
      exact ⟨hs, k, hk, by simpa using hdrop⟩
    constructor
    · simp [writeHL_NodeList, createHlHdfFile, allocHandle, H5Gopen, lookupHandle,
        List.lookup, hneg, hneg2]
      exact (key _).1
    · simp [writeHL_NodeList, createHlHdfFile, allocHandle, H5Gopen, lookupHandle,
        List.lookup, hneg, hneg2]
      exact (key _).2

/-- C7 witness: the two-node list with a missing parent fails, and every
node after the failure position is untouched. -/
theorem claim_C7_witness :
    (writeHL_NodeList stEmpty nlMissingParent none none).status = 0 ∧
    ∃ k, k < nlMissingParent.nodes.length ∧
      (writeHL_NodeList stEmpty nlMissingParent none none).nodelist.nodes.drop (k + 1) =
        nlMissingParent.nodes.drop (k + 1) :=
  claim_C7_write_missing_parent_fails stEmpty nlMissingParent none none orphanAttrNode
    "/x" "a" (by decide) (by decide) (by decide) (by decide)

/-- C5 (amended): a node whose type is not one of the five recognized
variants is reported through the error log but skipped: dispatch continues
and the call can return success. For a single-node list under the root,
`writeHL_NodeList` returns success with the node untouched, and so does
`updateHL_NodeList` on an existing file, whatever the node mark. -/
theorem claim_C5_unrecognized_type_continues (st : H5State)
    (prop : Option HL_FileCreationProperty)
    (comp : Option HL_Compression) (n : HL_Node) (fn c : String)
    (hnext : 0 ≤ st.nextId)
    (ht : n.type = UNDEFINED_ID)
    (hx : extractParentChildName n = some ("", c)) :
    (writeHL_NodeList st { filename := fn, nodes := [n] } prop comp).status = 1 ∧
    (writeHL_NodeList st { filename := fn, nodes := [n] } prop comp).nodelist.nodes = [n] ∧
    (fn ∈ st.files →
        (updateHL_NodeList st { filename := fn, nodes := [n] } comp).status = 1 ∧
        (updateHL_NodeList st { filename := fn, nodes := [n] } comp).nodelist.nodes = [n]) := by
  have hneg : ¬st.nextId < 0 := by omega
  have hneg2 : ¬st.nextId + 1 < 0 := by omega
  refine ⟨?_, ?_, ?_⟩
  · simp [writeHL_NodeList, createHlHdfFile, allocHandle, H5Gopen, lookupHandle,
      List.lookup, hneg, hneg2, writeLoop, writeStep, hx, ht]
  · simp [writeHL_NodeList, createHlHdfFile, allocHandle, H5Gopen, lookupHandle,
      List.lookup, hneg, hneg2, writeLoop, writeStep, hx, ht]
  · intro hmem
    by_cases hm : n.mark = NMARK_CREATED
    · constructor <;>
        simp [updateHL_NodeList, openHlHdfFile, allocHandle, hmem, hneg,
          updateLoop, updateStep, hx, ht, hm]
    · constructor <;>
        simp [updateHL_NodeList, openHlHdfFile, allocHandle, hmem, hneg,
          updateLoop, updateStep, hx, ht, hm]

/-- C5 witness: the amended behaviour at a concrete unrecognized node, with
both entry points returning success and the node untouched. -/
theorem claim_C5_witness :
    (writeHL_NodeList stExisting { filename := "f.h5", nodes := [unrecNode] } none none).status = 1 ∧
    (writeHL_NodeList stExisting { filename := "f.h5", nodes := [unrecNode] }
        none none).nodelist.nodes = [unrecNode] ∧
    (updateHL_NodeList stExisting { filename := "f.h5", nodes := [unrecNode] } none).status = 1 ∧
    (updateHL_NodeList stExisting { filename := "f.h5", nodes := [unrecNode] }
        none).nodelist.nodes = [unrecNode] :=
  have h := claim_C5_unrecognized_type_continues stExisting none none unrecNode "f.h5" "x"
    (by decide) (by decide) (by decide)
  ⟨h.1, h.2.1, (h.2.2 (by decide)).1, (h.2.2 (by decide)).2⟩
